import Mathlib

/-! # go-http-downloader: the parallel block download engine

A shallow embedding of `downloader.go` (package `httpDownloader`) and the
properties of its worker, its completion reactor and its failure sink.

* `int64` quantities (offsets and sizes) are integers on which every
  arithmetic operation of the source is followed by `wrap64`, the
  two's-complement wrap-around of Go.
* Goroutines are modelled by an explicit program counter per goroutine and an
  interleaving step function `step`; what the outside world answers (HTTP
  status, body reads, I/O errors, the result of the refresh callback) is part
  of the action label.
* The source does not synchronise `client.DownloadedSize += i64` (line 190).
  A pass through the read loop is therefore available in two grains: the
  action `iter` is the pass in which no other goroutine runs between the load
  and the store of that statement, the actions `iterLoad` and `iterStore` are
  its two halves, between which other goroutines may run.
* Function-valued fields (`RefreshFunc`, `onCompleted`, `onFailed`) are
  represented by whether they are non-nil; their invocations are recorded in
  the event log of the state.
-/

namespace HttpDownloader

/-! ## Machine integers -/

/-- Two's-complement wrap-around of an integer into the `int64` range. -/
def wrap64 (x : Int) : Int :=
  (x + 9223372036854775808) % 18446744073709551616 - 9223372036854775808

/-- The integer is the value of some `int64`. -/
def isInt64 (x : Int) : Prop :=
  -9223372036854775808 ≤ x ∧ x < 9223372036854775808

instance (x : Int) : Decidable (isInt64 x) := by
  unfold isInt64; infer_instance

/-! ## Data model -/

/-- Modelled from the spec: the `DownloadBlock` type is declared outside
`downloader.go`; these are the fields `downloader.go` reads and writes.
`BeginOffset`, `EndOffset` and `DownloadedSize` are `int64` in the source. -/
structure DownloadBlock where
  BeginOffset : Int
  EndOffset : Int
  DownloadedSize : Int
  Downloading : Bool
  Completed : Bool
  retryCount : Int
deriving DecidableEq, Repr

/-- Modelled from the spec: the `DownloaderInfo` type is declared outside
`downloader.go`; these are the fields `downloader.go` uses. -/
structure DownloaderInfo where
  TargetFile : String
  BlockList : List DownloadBlock
  Uris : List String
  Headers : List (String × String)
  ThreadCount : Int
deriving DecidableEq, Repr

/-- The `DownloaderClient` struct. `hasRefreshFunc`, `hasOnCompleted` and
`hasOnFailed` say whether `RefreshFunc`, `onCompleted`, `onFailed` are
non-nil. -/
structure DownloaderClient where
  Speed : Int
  DownloadedSize : Int
  Downloading : Bool
  Completed : Bool
  Failed : Bool
  FailedMessage : String
  Info : DownloaderInfo
  hasRefreshFunc : Bool
  RefreshTime : Int
  hasOnCompleted : Bool
  hasOnFailed : Bool
deriving DecidableEq, Repr

/-- `NewClient(info)`: every field but `Info` has its zero value. -/
def NewClient (info : DownloaderInfo) : DownloaderClient :=
  { Speed := 0, DownloadedSize := 0, Downloading := false, Completed := false,
    Failed := false, FailedMessage := "", Info := info, hasRefreshFunc := false,
    RefreshTime := 0, hasOnCompleted := false, hasOnFailed := false }

/-- The error of a `resp.Body.Read`: `nil`, `io.EOF`, or another error. -/
inductive ReadErr where
  | none
  | eof
  | other (msg : String)
deriving DecidableEq, Repr

/-! ## The body of the read loop (lines 163–195) -/

/-- How one pass through the body of the read loop ends. -/
inductive IterOutcome where
  /-- Read error with `retryCount < 5`: re-enter `download` (lines 164–167). -/
  | retry
  /-- Read error with retries exhausted (lines 169–172). -/
  | readFailed (msg : String)
  /-- Run-time panic: slice bounds out of range at `buffer[:i]` or `buffer[:i64]`. -/
  | panicked
  /-- The write failed (lines 182–186). -/
  | writeFailed (msg : String)
  /-- The block was marked completed and the loop left (lines 191–193). -/
  | finished
  /-- The next chunk is read (line 195). -/
  | again
deriving DecidableEq, Repr

/-- Result of one pass through the loop body. -/
structure IterResult where
  outcome : IterOutcome
  block : DownloadBlock
  /-- The new `client.DownloadedSize`. -/
  clientSize : Int
  /-- Length of the slice handed to `writer.Write` by a successful write. -/
  written : Int
deriving DecidableEq, Repr

/-- Lines 175–180: `i64` after the truncation, and whether `err` was set to
`io.EOF` by it. -/
def chunkSize (b : DownloadBlock) (i : Nat) : Int × Bool :=
  let i64 : Int := i
  let needSize := wrap64 (wrap64 (b.EndOffset + 1) - b.BeginOffset)
  if i64 > needSize then (needSize, true) else (i64, false)

/-- Lines 163–195, entered with `client.Downloading` true: `i`, `err` are the
results of the last `resp.Body.Read(buffer)`, `writeErr` what `writer.Write`
answers. The buffer has 1024 bytes. -/
def loopBody (b : DownloadBlock) (clientSize : Int) (i : Nat) (err : ReadErr)
    (writeErr : Option String) : IterResult :=
  match err with
  | ReadErr.other msg =>
    if b.retryCount < 5 then
      ⟨IterOutcome.retry, { b with retryCount := b.retryCount + 1 }, clientSize, 0⟩
    else
      ⟨IterOutcome.readFailed msg, { b with Downloading := false }, clientSize, 0⟩
  | _ =>
    let b1 := { b with retryCount := 0 }
    if 1024 < i then ⟨IterOutcome.panicked, b1, clientSize, 0⟩
    else
      let c := chunkSize b1 i
      let i64 := c.1
      let eof := c.2 || decide (err = ReadErr.eof)
      if i64 < 0 then ⟨IterOutcome.panicked, b1, clientSize, 0⟩
      else
        match writeErr with
        | some e => ⟨IterOutcome.writeFailed e, { b1 with Downloading := false }, clientSize, 0⟩
        | Option.none =>
          let b2 := { b1 with BeginOffset := wrap64 (b1.BeginOffset + i64),
                              DownloadedSize := wrap64 (b1.DownloadedSize + i64) }
          let cs := wrap64 (clientSize + i64)
          if eof || decide (b2.BeginOffset > b2.EndOffset) then
            ⟨IterOutcome.finished, { b2 with Completed := true }, cs, i64⟩
          else
            ⟨IterOutcome.again, b2, cs, i64⟩

/-! ## Goroutines, shared state and the event log -/

/-- Observable actions, recorded newest first in `State.log`. -/
inductive Event where
  /-- Block `block` was marked as taken (lines 59–60 or 82–83). -/
  | claim (block : Nat)
  /-- A `go block.download(client, uri, ch)` statement. -/
  | spawn (block : Nat) (uri : String)
  /-- A `client.client.Do(req)` with the range header `bytes=first-last`. -/
  | request (block : Nat) (uri : String) (first last : Int)
  /-- A recursive call `block.download(client, uri, ch)` (lines 152 and 166). -/
  | retry (block : Nat) (uri : String)
  /-- A chunk of `n` bytes accepted by the loop (line 174 reached). -/
  | read (block : Nat) (n : Nat)
  /-- A successful `writer.Write` of `n` bytes for file offset `offset`. -/
  | write (block : Nat) (offset n : Int)
  /-- A call of `client.callFailed(err)`. -/
  | callFailed (msg : String)
  /-- An invocation of the `onFailed` callback. -/
  | onFailed (msg : String)
  /-- An invocation of the `onCompleted` callback. -/
  | onCompleted
  /-- A value passed from a worker to the reactor over `ch`. -/
  | signal (block : Nat) (stat : Bool)
deriving DecidableEq, Repr

/-- Where a worker goroutine stands in `download`. -/
inductive WorkerPc where
  /-- About to run `download(client, uri, ch)` from line 114. -/
  | entry (uri : String)
  /-- At the loop guard of line 162, holding the results of the last `Read`. -/
  | loop (uri : String) (i : Nat) (err : ReadErr)
  /-- Between the load and the store of `client.DownloadedSize += i64`
  (line 190): `i64` bytes were written, `loaded` is the value that was read,
  `eof` says whether `err == io.EOF` holds. -/
  | adding (uri : String) (i64 loaded : Int) (eof : Bool)
  /-- At a `ch <- stat` statement. -/
  | send (stat : Bool)
  /-- Returned. -/
  | exited
deriving DecidableEq, Repr

/-- A worker goroutine: the index of its block in `BlockList` and its position. -/
structure Worker where
  block : Nat
  pc : WorkerPc
deriving DecidableEq, Repr

/-- Where the reactor goroutine (lines 64–89) stands. -/
inductive ReactorPc where
  | notStarted
  /-- At the loop guard of line 65. -/
  | guard
  /-- Blocked in `stat := <-ch` (line 66). -/
  | recv
  /-- Left through the `return` of line 69; `ch` stays open. -/
  | returned
  /-- Left the loop and executed `close(ch)` (line 88). -/
  | closed
deriving DecidableEq, Repr

/-- Where the speed goroutine (lines 90–96) stands. -/
inductive TickerPc where
  | notStarted
  | guard
  | sleeping (oldSize : Int)
  | stopped
deriving DecidableEq, Repr

/-- Where the refresh goroutine (lines 97–108) stands. -/
inductive RefresherPc where
  | notStarted
  /-- Before the ticker is created and the first `RefreshFunc()` of line 100. -/
  | first
  /-- Inside `for range ticker`. -/
  | ticking
  | stopped
deriving DecidableEq, Repr

/-- The shared memory and all goroutines of one run. -/
structure State where
  client : DownloaderClient
  workers : List Worker
  reactor : ReactorPc
  ticker : TickerPc
  refresher : RefresherPc
  /-- A goroutine has panicked; the process is gone. -/
  crashed : Bool
  log : List Event
deriving DecidableEq, Repr

/-- The state around a client on which `BeginDownload` has not been called. -/
def initState (c : DownloaderClient) : State :=
  { client := c, workers := [], reactor := ReactorPc.notStarted,
    ticker := TickerPc.notStarted, refresher := RefresherPc.notStarted,
    crashed := false, log := [] }

/-- Replace the element at position `k` by its image under `f`. -/
def modifyAt {α : Type} (f : α → α) : List α → Nat → List α
  | [], _ => []
  | x :: xs, 0 => f x :: xs
  | x :: xs, k + 1 => x :: modifyAt f xs k

/-- The block list of the job. -/
def State.blocks (s : State) : List DownloadBlock := s.client.Info.BlockList

/-- Assignment through the pointer to block `k`. -/
def State.modifyBlock (s : State) (k : Nat) (f : DownloadBlock → DownloadBlock) : State :=
  { s with client := { s.client with
      Info := { s.client.Info with BlockList := modifyAt f s.client.Info.BlockList k } } }

/-- Move worker `w` to `pc`. -/
def State.setPc (s : State) (w : Nat) (pc : WorkerPc) : State :=
  { s with workers := modifyAt (fun x => { x with pc := pc }) s.workers w }

/-- Record an event. -/
def State.emit (s : State) (e : Event) : State := { s with log := e :: s.log }

/-- Sum of `DownloadedSize` over a block list, as a mathematical integer. -/
def sumDownloaded : List DownloadBlock → Int
  | [] => 0
  | b :: bs => b.DownloadedSize + sumDownloaded bs

/-! ## Block queue -/

/-- Index of the first block that is neither completed nor being downloaded. -/
def nextFree : List DownloadBlock → Option Nat
  | [] => none
  | b :: bs => if !b.Completed && !b.Downloading then some 0 else (nextFree bs).map (· + 1)

/-- Modelled from the spec: `getNextBlockN` is defined outside `downloader.go`.
§4.1 `claim_next`: the first block of `block_list` whose `completed` and
`downloading` are both false, scanning in insertion order. The source returns
the index as an `int`, `-1` when there is no such block; here the index is
`some k` and `-1` is `none`. (Marking the block is done by the caller, lines
59–60 and 82–83.) -/
def getNextBlockN (info : DownloaderInfo) : Option Nat :=
  nextFree info.BlockList

/-- Modelled from the spec: `allDownloaded` is defined outside `downloader.go`.
§4.1 `all_done`: true iff every block has `completed == true`. -/
def allDownloaded (info : DownloaderInfo) : Bool :=
  info.BlockList.all (fun b => b.Completed)

/-! ## The failure sink -/

/-- `callFailed` (lines 215–221) on the client; the second component says
whether `onFailed(err)` was invoked. -/
def callFailed (c : DownloaderClient) (msg : String) : DownloaderClient × Bool :=
  if c.hasOnFailed && !c.Failed then
    ({ c with Failed := true, FailedMessage := msg }, true)
  else (c, false)

/-- `callFailed` in a run: the call and the callback invocation are logged. -/
def State.reportFailure (s : State) (msg : String) : State :=
  let r := callFailed s.client msg
  let s1 := { s with client := r.1, log := Event.callFailed msg :: s.log }
  if r.2 then s1.emit (Event.onFailed msg) else s1

/-- `Pause` (lines 201–205) on the client. -/
def Pause (c : DownloaderClient) : DownloaderClient :=
  if c.Downloading then { c with Downloading := false } else c

/-! ## Actions of the environment and of the scheduler -/

/-- What the outside world answers during one pass through lines 114–161. -/
inductive Attempt where
  /-- `http.NewRequest` fails (line 114). -/
  | requestErr (msg : String)
  /-- `os.OpenFile` fails (line 120). -/
  | openErr (msg : String)
  /-- `file.Seek` fails (line 127). -/
  | seekErr (msg : String)
  /-- `client.client.Do` fails (line 141). -/
  | doErr (msg : String)
  /-- A response with status code `status`; `refreshed` is what `RefreshFunc()`
  returns if line 151 calls it, `i`, `err` what the first `Read` of line 161
  returns if it is reached. -/
  | response (status : Int) (refreshed : List String) (i : Nat) (err : ReadErr)
deriving DecidableEq, Repr

/-- One scheduling step of the program. -/
inductive Action where
  /-- A call of `BeginDownload`; `isDir` is the answer of `IsDir(TargetFile)`. -/
  | begin (isDir : Bool)
  /-- Worker `w` runs lines 114–161. -/
  | attempt (w : Nat) (a : Attempt)
  /-- Worker `w` evaluates the loop guard of line 162 and, when it holds, runs
  the loop body once, with no step of another goroutine between the load and
  the store of `client.DownloadedSize += i64` (line 190); `writeErr` is the
  answer of `writer.Write`, `i`, `err` that of the `Read` of line 195. -/
  | iter (w : Nat) (writeErr : Option String) (i : Nat) (err : ReadErr)
  /-- Worker `w` evaluates the loop guard of line 162 and, when it holds, runs
  the loop body up to and including the load of `client.DownloadedSize` in
  line 190. -/
  | iterLoad (w : Nat) (writeErr : Option String)
  /-- Worker `w` stores the sum of line 190 and runs lines 191–198; `i`, `err`
  are the answer of the `Read` of line 195. -/
  | iterStore (w : Nat) (i : Nat) (err : ReadErr)
  /-- The send of worker `w` meets the receive of the reactor, which then
  runs lines 67–86. -/
  | deliver (w : Nat)
  /-- Worker `w` sends on the closed channel. -/
  | sendClosed (w : Nat)
  /-- The reactor evaluates the loop guard of line 65. -/
  | reactorGuard
  /-- The speed goroutine evaluates its loop guard and samples (lines 91–92). -/
  | tickerGuard
  /-- The speed goroutine wakes up and stores the speed (line 94). -/
  | tickerWake
  /-- The refresh goroutine runs one round; `uris` is the answer of `RefreshFunc()`. -/
  | refresh (uris : List String)
  /-- A call of `Pause`. -/
  | pause
deriving DecidableEq, Repr

/-- Lines 59–60 and 82–83: mark block `k` as taken. -/
def State.claim (s : State) (k : Nat) : State :=
  (s.modifyBlock k (fun b => { b with Downloading := true, retryCount := 0 })).emit
    (Event.claim k)

/-- A `go BlockList[k].download(client, uri, ch)` statement. -/
def State.spawn (s : State) (k : Nat) (uri : String) : State :=
  { s with workers := s.workers ++ [⟨k, WorkerPc.entry uri⟩],
           log := Event.spawn k uri :: s.log }

/-- Lines 50–52: add every block's progress to the running total. -/
def seedDownloaded (acc : Int) : List DownloadBlock → Int
  | [] => acc
  | b :: bs => seedDownloaded (wrap64 (acc + b.DownloadedSize)) bs

/-- Lines 56–63: `n` rounds of the initial dispatch loop. Evaluating
`client.Info.Uris[0]` on an empty list panics. -/
def dispatchInitial : Nat → State → State
  | 0, s => s
  | n + 1, s =>
    if s.crashed then s
    else
      match getNextBlockN s.client.Info with
      | none => dispatchInitial n s
      | some k =>
        match s.client.Info.Uris with
        | [] => { s.claim k with crashed := true }
        | u :: _ => dispatchInitial n ((s.claim k).spawn k u)

/-- Line 53: `int(math.Min(float64(ThreadCount), float64(len(BlockList))))`. -/
def threadCount (info : DownloaderInfo) : Int :=
  min info.ThreadCount info.BlockList.length

/-- `BeginDownload` (lines 44–111) past the directory check: the body of the
outer goroutine, up to the start of the three inner goroutines. -/
def BeginDownload (s : State) : State :=
  let c := s.client
  let s1 := { s with client := { c with
      Downloading := true,
      DownloadedSize := seedDownloaded c.DownloadedSize c.Info.BlockList } }
  let s2 := dispatchInitial (threadCount c.Info).toNat s1
  if s2.crashed then s2
  else
    { s2 with
        reactor := ReactorPc.guard,
        ticker := TickerPc.guard,
        refresher :=
          if c.hasRefreshFunc && decide (c.RefreshTime ≠ 0) then RefresherPc.first
          else RefresherPc.stopped }

/-- Lines 114–161 of `download` for worker `w` on block `k` (contents `b`),
called with `uri`. -/
def downloadRequest (s : State) (w k : Nat) (b : DownloadBlock) (uri : String) :
    Attempt → State
  | Attempt.requestErr msg => (s.reportFailure msg).setPc w (WorkerPc.send false)
  | Attempt.openErr msg => (s.reportFailure msg).setPc w (WorkerPc.send false)
  | Attempt.seekErr msg => (s.reportFailure msg).setPc w (WorkerPc.send false)
  | Attempt.doErr msg =>
    ((s.emit (Event.request k uri b.BeginOffset b.EndOffset)).reportFailure msg).setPc w
      (WorkerPc.send false)
  | Attempt.response status refreshed i err =>
    let s1 := s.emit (Event.request k uri b.BeginOffset b.EndOffset)
    if status < 200 || status ≥ 300 then
      if s1.client.hasRefreshFunc && decide (b.retryCount < 5) then
        let s2 := s1.modifyBlock k (fun x => { x with retryCount := x.retryCount + 1 })
        let s3 := { s2 with client := { s2.client with
            Info := { s2.client.Info with Uris := refreshed } } }
        match refreshed with
        | [] => { s3 with crashed := true }
        | u :: _ => (s3.emit (Event.retry k u)).setPc w (WorkerPc.entry u)
      else
        (((s1.modifyBlock k (fun x => { x with Downloading := false })).reportFailure
          ("response status unsuccessful: " ++ toString status)).setPc w (WorkerPc.send false))
    else s1.setPc w (WorkerPc.loop uri i err)

/-- Lines 162–198 of `download`: the loop guard and, when it holds, one pass
through the loop body for worker `w` on block `k` (contents `b`). `i`, `err`
are the pending results of the last `Read`, `ni`, `nerr` the results of the
`Read` of line 195. -/
def downloadLoop (s : State) (w k : Nat) (b : DownloadBlock) (uri : String) (i : Nat)
    (err : ReadErr) (writeErr : Option String) (ni : Nat) (nerr : ReadErr) : State :=
  if !s.client.Downloading then
    (s.modifyBlock k (fun x => { x with Downloading := false })).setPc w (WorkerPc.send true)
  else
    let r := loopBody b s.client.DownloadedSize i err writeErr
    let s1 := s.modifyBlock k (fun _ => r.block)
    match r.outcome with
    | IterOutcome.retry => (s1.emit (Event.retry k uri)).setPc w (WorkerPc.entry uri)
    | IterOutcome.readFailed msg => (s1.reportFailure msg).setPc w (WorkerPc.send false)
    | IterOutcome.panicked => { s1.emit (Event.read k i) with crashed := true }
    | IterOutcome.writeFailed e =>
      ((s1.emit (Event.read k i)).reportFailure e).setPc w (WorkerPc.send false)
    | IterOutcome.finished =>
      let s2 := { s1 with client := { s1.client with DownloadedSize := r.clientSize } }
      let s3 := (s2.emit (Event.read k i)).emit (Event.write k b.BeginOffset r.written)
      (s3.modifyBlock k (fun x => { x with Downloading := false })).setPc w (WorkerPc.send true)
    | IterOutcome.again =>
      let s2 := { s1 with client := { s1.client with DownloadedSize := r.clientSize } }
      let s3 := (s2.emit (Event.read k i)).emit (Event.write k b.BeginOffset r.written)
      s3.setPc w (WorkerPc.loop uri ni nerr)

/-- Line 191, first disjunct: `err == io.EOF` after lines 175–180. -/
def loopEof (b : DownloadBlock) (i : Nat) (err : ReadErr) : Bool :=
  (chunkSize b i).2 || decide (err = ReadErr.eof)

/-- Lines 162–190 of `download` up to the load of `client.DownloadedSize`:
the loop guard and, when it holds, the loop body for worker `w` on block `k`
(contents `b`) through lines 188–189 and the read of the total in line 190.
When the pass ends before line 190 the effect is that of `downloadLoop`. -/
def downloadLoopLoad (s : State) (w k : Nat) (b : DownloadBlock) (uri : String) (i : Nat)
    (err : ReadErr) (writeErr : Option String) : State :=
  if !s.client.Downloading then
    (s.modifyBlock k (fun x => { x with Downloading := false })).setPc w (WorkerPc.send true)
  else
    let r := loopBody b s.client.DownloadedSize i err writeErr
    let s1 := s.modifyBlock k (fun _ => r.block)
    match r.outcome with
    | IterOutcome.retry => (s1.emit (Event.retry k uri)).setPc w (WorkerPc.entry uri)
    | IterOutcome.readFailed msg => (s1.reportFailure msg).setPc w (WorkerPc.send false)
    | IterOutcome.panicked => { s1.emit (Event.read k i) with crashed := true }
    | IterOutcome.writeFailed e =>
      ((s1.emit (Event.read k i)).reportFailure e).setPc w (WorkerPc.send false)
    | _ =>
      let s2 := s.modifyBlock k (fun _ => { r.block with Completed := b.Completed })
      let s3 := (s2.emit (Event.read k i)).emit (Event.write k b.BeginOffset r.written)
      s3.setPc w (WorkerPc.adding uri r.written s.client.DownloadedSize (loopEof b i err))

/-- The store of line 190 and lines 191–198 for worker `w` on block `k`
(contents `b`): `loaded` is the total read before, `i64` the number of bytes
written, `ni`, `nerr` the results of the `Read` of line 195. -/
def downloadLoopStore (s : State) (w k : Nat) (b : DownloadBlock) (uri : String)
    (i64 loaded : Int) (eof : Bool) (ni : Nat) (nerr : ReadErr) : State :=
  let s1 := { s with client := { s.client with DownloadedSize := wrap64 (loaded + i64) } }
  if eof || decide (b.BeginOffset > b.EndOffset) then
    (s1.modifyBlock k (fun x => { x with Completed := true, Downloading := false })).setPc w
      (WorkerPc.send true)
  else s1.setPc w (WorkerPc.loop uri ni nerr)

/-- Lines 67–86 of the reactor, run on the value `stat` just received. -/
def reactorReceive (s : State) (stat : Bool) : State :=
  if !stat then
    { s with client := { s.client with Downloading := false }, reactor := ReactorPc.returned }
  else
    match getNextBlockN s.client.Info with
    | none =>
      if allDownloaded s.client.Info then
        let s1 := { s with client := { s.client with Downloading := false } }
        let s2 := if s1.client.hasOnCompleted then s1.emit Event.onCompleted else s1
        { s2 with client := { s2.client with Completed := true }, reactor := ReactorPc.guard }
      else { s with reactor := ReactorPc.guard }
    | some k =>
      let s1 := s.claim k
      match s1.client.Info.Uris with
      | [] => { s1 with reactor := ReactorPc.guard }
      | u :: _ => { s1.spawn k u with reactor := ReactorPc.guard }

/-- One step of the program; `none` when the action is not enabled. -/
def step (a : Action) (s : State) : Option State :=
  if s.crashed then none
  else
    match a with
    | Action.begin isDir =>
      if s.reactor = ReactorPc.notStarted then
        if isDir then some s else some (BeginDownload s)
      else none
    | Action.attempt w a =>
      match s.workers[w]? with
      | some ⟨k, WorkerPc.entry uri⟩ =>
        match s.blocks[k]? with
        | some b => some (downloadRequest s w k b uri a)
        | none => none
      | _ => none
    | Action.iter w writeErr ni nerr =>
      match s.workers[w]? with
      | some ⟨k, WorkerPc.loop uri i err⟩ =>
        match s.blocks[k]? with
        | some b => some (downloadLoop s w k b uri i err writeErr ni nerr)
        | none => none
      | _ => none
    | Action.iterLoad w writeErr =>
      match s.workers[w]? with
      | some ⟨k, WorkerPc.loop uri i err⟩ =>
        match s.blocks[k]? with
        | some b => some (downloadLoopLoad s w k b uri i err writeErr)
        | none => none
      | _ => none
    | Action.iterStore w ni nerr =>
      match s.workers[w]? with
      | some ⟨k, WorkerPc.adding uri i64 loaded eof⟩ =>
        match s.blocks[k]? with
        | some b => some (downloadLoopStore s w k b uri i64 loaded eof ni nerr)
        | none => none
      | _ => none
    | Action.deliver w =>
      match s.workers[w]? with
      | some ⟨k, WorkerPc.send stat⟩ =>
        if s.reactor = ReactorPc.recv then
          some (reactorReceive ((s.setPc w WorkerPc.exited).emit (Event.signal k stat)) stat)
        else none
      | _ => none
    | Action.sendClosed w =>
      match s.workers[w]? with
      | some ⟨_, WorkerPc.send _⟩ =>
        if s.reactor = ReactorPc.closed then some { s with crashed := true } else none
      | _ => none
    | Action.reactorGuard =>
      if s.reactor = ReactorPc.guard then
        some { s with reactor :=
          if s.client.Downloading then ReactorPc.recv else ReactorPc.closed }
      else none
    | Action.tickerGuard =>
      if s.ticker = TickerPc.guard then
        some { s with ticker :=
          if s.client.Downloading then TickerPc.sleeping s.client.DownloadedSize
          else TickerPc.stopped }
      else none
    | Action.tickerWake =>
      match s.ticker with
      | TickerPc.sleeping old =>
        some { s with client := { s.client with
                        Speed := wrap64 (s.client.DownloadedSize - old) },
                      ticker := TickerPc.guard }
      | _ => none
    | Action.refresh uris =>
      match s.refresher with
      | RefresherPc.first =>
        if s.client.RefreshTime < 0 then some { s with crashed := true }
        else
          some { s with client := { s.client with
                          Info := { s.client.Info with Uris := uris } },
                        refresher := RefresherPc.ticking }
      | RefresherPc.ticking =>
        if !s.client.Downloading then some { s with refresher := RefresherPc.stopped }
        else
          some { s with client := { s.client with
                          Info := { s.client.Info with Uris := uris } } }
      | _ => none
    | Action.pause => some { s with client := Pause s.client }

/-- Run a schedule; `none` when one of its actions is not enabled. -/
def run : List Action → State → Option State
  | [], s => some s
  | a :: as, s => (step a s).bind (run as)

/-! ## Harnesses and scenarios -/

/-- A sequence of `callFailed` invocations; the second component lists the
arguments with which `onFailed` was invoked, in order. -/
def callFailedAll : DownloaderClient → List String → DownloaderClient × List String
  | c, [] => (c, [])
  | c, e :: es =>
    let r := callFailed c e
    let r2 := callFailedAll r.1 es
    (r2.1, (if r.2 then [e] else []) ++ r2.2)

/-- Number of recursive `download` calls for block `k` since the block was
last taken or last had a chunk accepted: the consecutive retries of the
worker on `k` without an intervening successful read. -/
def retriesSince (k : Nat) : List Event → Nat
  | [] => 0
  | Event.retry j _ :: es => if j = k then retriesSince k es + 1 else retriesSince k es
  | Event.read j _ :: es => if j = k then 0 else retriesSince k es
  | Event.claim j :: es => if j = k then 0 else retriesSince k es
  | _ :: es => retriesSince k es

/-- The URI of the most recent request in the log. -/
def lastRequestUri : List Event → Option String
  | [] => none
  | Event.request _ uri _ _ :: _ => some uri
  | _ :: es => lastRequestUri es

/-- Total number of recursive `download` calls in the log. -/
def countRetries : List Event → Nat
  | [] => 0
  | Event.retry _ _ :: es => countRetries es + 1
  | _ :: es => countRetries es

/-- Number of `onCompleted` invocations in the log. -/
def countOnCompleted : List Event → Nat
  | [] => 0
  | Event.onCompleted :: es => countOnCompleted es + 1
  | _ :: es => countOnCompleted es

/-- Number of `onFailed` invocations in the log. -/
def countOnFailed : List Event → Nat
  | [] => 0
  | Event.onFailed _ :: es => countOnFailed es + 1
  | _ :: es => countOnFailed es

/-- Number of `callFailed` calls in the log. -/
def countCallFailed : List Event → Nat
  | [] => 0
  | Event.callFailed _ :: es => countCallFailed es + 1
  | _ :: es => countCallFailed es

/-- A block `[first, last]` on which nothing has been downloaded. -/
def freshBlock (first last : Int) : DownloadBlock :=
  { BeginOffset := first, EndOffset := last, DownloadedSize := 0,
    Downloading := false, Completed := false, retryCount := 0 }

/-- A job with the single block `[0, 9]` and the URI list `[U1, U2]`. -/
def oneBlockInfo : DownloaderInfo :=
  { TargetFile := "out.bin", BlockList := [freshBlock 0 9], Uris := ["U1", "U2"],
    Headers := [], ThreadCount := 1 }

/-- A job with the blocks `[0, 9]` and `[10, 19]`, two threads and one URI. -/
def twoBlockInfo : DownloaderInfo :=
  { TargetFile := "out.bin", BlockList := [freshBlock 0 9, freshBlock 10 19],
    Uris := ["U1"], Headers := [], ThreadCount := 2 }

/-- The states after each prefix of a schedule, oldest first; the list stops
at the first action that is not enabled. -/
def trace : List Action → State → List State
  | [], _ => []
  | a :: as, s =>
    match step a s with
    | some t => t :: trace as t
    | none => []

/-- The client of `oneBlockInfo` with a `RefreshFunc` and an `onFailed`
callback (and `RefreshTime = 0`, so that no refresh goroutine runs). -/
def refreshingClient : DownloaderClient :=
  { NewClient oneBlockInfo with hasRefreshFunc := true, hasOnFailed := true }

/-- Scenario "transient 503 then success": the first response has status 503,
the refresher answers `[U2, U1]`, the second response has status 200 and
delivers the 10 bytes of the block. -/
def transient503 : List Action :=
  [Action.begin false, Action.reactorGuard,
   Action.attempt 0 (Attempt.response 503 ["U2", "U1"] 0 ReadErr.none),
   Action.attempt 0 (Attempt.response 200 [] 10 ReadErr.none),
   Action.iter 0 none 0 ReadErr.eof,
   Action.deliver 0, Action.reactorGuard]

/-- Scenario "503, no refresher": the responses of `transient503` offered to a
client without `RefreshFunc`. -/
def transient503NoRefresher : List Action :=
  [Action.begin false, Action.reactorGuard,
   Action.attempt 0 (Attempt.response 503 [] 0 ReadErr.none),
   Action.deliver 0,
   Action.attempt 0 (Attempt.response 200 [] 10 ReadErr.none)]

/-- The client of `oneBlockInfo` with a `RefreshFunc` that the refresh
goroutine calls every second. -/
def rotatingClient : DownloaderClient :=
  { NewClient oneBlockInfo with hasRefreshFunc := true, RefreshTime := 1000 }

/-- Scenario "URI list replaced, then body read error": the worker is
dispatched with `U1`, its first read fails, the refresh goroutine replaces the
list by `[U2, U1]`, the worker retries. -/
def readErrorAfterRotation : List Action :=
  [Action.begin false,
   Action.attempt 0 (Attempt.response 200 [] 0 (ReadErr.other "connection reset")),
   Action.refresh ["U2", "U1"],
   Action.iter 0 none 0 ReadErr.none,
   Action.attempt 0 (Attempt.response 200 [] 10 ReadErr.none)]

/-- The state of `readErrorAfterRotation` after its first three actions: the
read error is pending and the URI list has been replaced. -/
def rotatedState : State :=
  (run (readErrorAfterRotation.take 3) (initState rotatingClient)).getD
    (initState rotatingClient)

/-- The client of `twoBlockInfo` with an `onFailed` callback. -/
def pausingClient : DownloaderClient :=
  { NewClient twoBlockInfo with hasOnFailed := true }

/-- Scenario "pause mid-stream": worker 0 has written 4 of its 10 bytes and
the request of worker 1 is in flight when `Pause` is called; the response to
worker 1 then arrives with status 500; worker 0 sees the cleared flag and
signals; the reactor, blocked in its receive, handles the signal. -/
def pauseMidStream : List Action :=
  [Action.begin false, Action.reactorGuard,
   Action.attempt 0 (Attempt.response 200 [] 4 ReadErr.none),
   Action.iter 0 none 0 ReadErr.none,
   Action.pause,
   Action.attempt 1 (Attempt.response 500 [] 0 ReadErr.none),
   Action.iter 0 none 0 ReadErr.none,
   Action.deliver 0]

/-- The client of `twoBlockInfo` with both callbacks registered and no
`RefreshFunc`. -/
def twoBlockClient : DownloaderClient :=
  { NewClient twoBlockInfo with hasOnCompleted := true, hasOnFailed := true }

/-- Scenario "failure races completion": the request for block 0 is answered
with status 500; its worker clears the block's flag and calls `callFailed`
but has not yet sent `false`; the worker of block 1 finishes and its signal
is received first, so the reactor hands block 0 to a third worker, which
downloads it; its signal too is received before the pending `false`. -/
def failureRacesCompletion : List Action :=
  [Action.begin false, Action.reactorGuard,
   Action.attempt 0 (Attempt.response 500 [] 0 ReadErr.none),
   Action.attempt 1 (Attempt.response 200 [] 10 ReadErr.none),
   Action.iter 1 none 0 ReadErr.eof,
   Action.deliver 1, Action.reactorGuard,
   Action.attempt 2 (Attempt.response 200 [] 10 ReadErr.none),
   Action.iter 2 none 0 ReadErr.eof,
   Action.deliver 2]

/-- Scenario "exhausted retries": six responses of status 500 in a row, the
refresher answering `[U1, U2]` each time; then the failure signal is received. -/
def exhaustedRetries : List Action :=
  [Action.begin false, Action.reactorGuard,
   Action.attempt 0 (Attempt.response 500 ["U1", "U2"] 0 ReadErr.none),
   Action.attempt 0 (Attempt.response 500 ["U1", "U2"] 0 ReadErr.none),
   Action.attempt 0 (Attempt.response 500 ["U1", "U2"] 0 ReadErr.none),
   Action.attempt 0 (Attempt.response 500 ["U1", "U2"] 0 ReadErr.none),
   Action.attempt 0 (Attempt.response 500 ["U1", "U2"] 0 ReadErr.none),
   Action.attempt 0 (Attempt.response 500 ["U1", "U2"] 0 ReadErr.none),
   Action.deliver 0]

/-- Scenario "always 500, default client": the responses of `exhaustedRetries`
offered to a client without `RefreshFunc`. -/
def always500NoRefresher : List Action :=
  [Action.begin false, Action.reactorGuard,
   Action.attempt 0 (Attempt.response 500 [] 0 ReadErr.none),
   Action.deliver 0,
   Action.attempt 0 (Attempt.response 500 [] 0 ReadErr.none)]

/-- The client of `twoBlockInfo` with a `RefreshFunc` and an `onFailed`
callback (and `RefreshTime = 0`). -/
def refreshingTwoBlockClient : DownloaderClient :=
  { NewClient twoBlockInfo with hasRefreshFunc := true, hasOnFailed := true }

/-- Scenario "exhausted retries after another failure": the request of worker
1 fails in the transport and its failure signal is received, so the reactor
returns; worker 0 then receives six responses of status 500 in a row. The last
action, the delivery of its failure signal, is never enabled. -/
def exhaustedUnheard : List Action :=
  [Action.begin false, Action.reactorGuard,
   Action.attempt 1 (Attempt.doErr "connection refused"),
   Action.deliver 1,
   Action.attempt 0 (Attempt.response 500 ["U1"] 0 ReadErr.none),
   Action.attempt 0 (Attempt.response 500 ["U1"] 0 ReadErr.none),
   Action.attempt 0 (Attempt.response 500 ["U1"] 0 ReadErr.none),
   Action.attempt 0 (Attempt.response 500 ["U1"] 0 ReadErr.none),
   Action.attempt 0 (Attempt.response 500 ["U1"] 0 ReadErr.none),
   Action.attempt 0 (Attempt.response 500 ["U1"] 0 ReadErr.none),
   Action.deliver 0]

/-- Number of values of worker signals for block `k` received by the reactor. -/
def countSignals (k : Nat) : List Event → Nat
  | [] => 0
  | Event.signal j _ :: es => if j = k then countSignals k es + 1 else countSignals k es
  | _ :: es => countSignals k es

/-- The final state of scenario `exhaustedRetries`. -/
def exhaustedState : State :=
  (run exhaustedRetries (initState refreshingClient)).getD (initState refreshingClient)

/-- A job resumed with 4 bytes of block `[0, 9]` already on disk and block
`[10, 19]` untouched. -/
def resumedInfo : DownloaderInfo :=
  { twoBlockInfo with BlockList :=
      [{ freshBlock 0 9 with BeginOffset := 4, DownloadedSize := 4 }, freshBlock 10 19] }

/-- The resumed job after `BeginDownload`, a 2xx response for block 0 and two
chunks of 3 bytes written for it. -/
def resumedState : State :=
  (run [Action.begin false,
        Action.attempt 0 (Attempt.response 206 [] 3 ReadErr.none),
        Action.iter 0 none 3 ReadErr.none,
        Action.iter 0 none 0 ReadErr.eof]
    (initState (NewClient resumedInfo))).getD (initState (NewClient resumedInfo))

/-- Whether some worker stands between the load and the store of line 190. -/
def midAdd (s : State) : Bool :=
  s.workers.any (fun x =>
    match x.pc with
    | WorkerPc.adding _ _ _ _ => true
    | _ => false)

/-- Scenario "lost update": both workers of the two-block job have a chunk of
3 bytes pending. Worker 0 writes its chunk and loads the total (0) in line
190; before it stores, worker 1 writes two chunks of 3 bytes; then worker 0
stores `0 + 3`. -/
def lostUpdate : List Action :=
  [Action.begin false,
   Action.attempt 0 (Attempt.response 200 [] 3 ReadErr.none),
   Action.attempt 1 (Attempt.response 200 [] 3 ReadErr.none),
   Action.iterLoad 0 none,
   Action.iter 1 none 3 ReadErr.none,
   Action.iter 1 none 3 ReadErr.none,
   Action.iterStore 0 3 ReadErr.none]

/-- A job whose only block `[0, 9]` is already completed. -/
def completedInfo : DownloaderInfo :=
  { oneBlockInfo with BlockList :=
      [{ BeginOffset := 10, EndOffset := 9, DownloadedSize := 10,
         Downloading := false, Completed := true, retryCount := 0 }] }

/-- The retry invariant on the workers, the blocks and the log: every worker's
block has been taken in this run, and for every block taken in this run the
number of consecutive retries is at most `retryCount`, which is at most 5. -/
def RetryOK (ws : List Worker) (bs : List DownloadBlock) (log : List Event) : Prop :=
  (∀ w ∈ ws, Event.claim w.block ∈ log) ∧
  (∀ k b, bs[k]? = some b → Event.claim k ∈ log →
    (retriesSince k log : Int) ≤ b.retryCount ∧ b.retryCount ≤ 5)

/-- The retry invariant of a state. -/
def RetryInv (s : State) : Prop :=
  RetryOK s.workers s.client.Info.BlockList s.log

/-- Events that neither are nor reset a retry. -/
def Event.neutral : Event → Bool
  | Event.claim _ => false
  | Event.retry _ _ => false
  | Event.read _ _ => false
  | _ => true

/-- The action does not separate the load from the store of
`client.DownloadedSize += i64` (line 190). -/
def Action.atomicAdd : Action → Bool
  | Action.iterLoad _ _ => false
  | Action.iterStore _ _ _ => false
  | _ => true

/-- The aggregate invariant: once the run has started, the client total is
the sum of the blocks' progress, in `int64` arithmetic. -/
def SyncInv (s : State) : Prop :=
  (s.reactor ≠ ReactorPc.notStarted ∨ s.crashed = true) ∧
  s.client.DownloadedSize = wrap64 (sumDownloaded s.client.Info.BlockList)

/-- The step changes neither the client total nor the sum over the blocks. -/
def Keeps (s t : State) : Prop :=
  t.client.DownloadedSize = s.client.DownloadedSize ∧
  sumDownloaded t.client.Info.BlockList = sumDownloaded s.client.Info.BlockList

/-- What a step of the speed goroutine, of the refresh goroutine, of the
reactor at its loop guard, a send on the closed channel or a `Pause` can
change: the goroutines' positions, `crashed`, `Speed`, `Uris` and
`Downloading`, the latter only by `Pause`. -/
def AuxStep (a : Action) (s t : State) : Prop :=
  t.workers = s.workers ∧ t.log = s.log ∧
  t.client.Info.BlockList = s.client.Info.BlockList ∧
  t.client.DownloadedSize = s.client.DownloadedSize ∧
  t.client.Completed = s.client.Completed ∧
  t.client.Failed = s.client.Failed ∧
  t.client.FailedMessage = s.client.FailedMessage ∧
  t.client.hasOnFailed = s.client.hasOnFailed ∧
  t.client.hasOnCompleted = s.client.hasOnCompleted ∧
  t.client.hasRefreshFunc = s.client.hasRefreshFunc ∧
  (t.client.Downloading = s.client.Downloading ∨
    (a = Action.pause ∧ t.client.Downloading = false)) ∧
  (t.reactor = s.reactor ∨
    (a = Action.reactorGuard ∧ s.reactor = ReactorPc.guard ∧
      t.reactor = (if s.client.Downloading then ReactorPc.recv else ReactorPc.closed)))

/-- The state in which the reactor waits for a signal that no worker will
send: no worker exists, nothing has happened, `Completed` is false. -/
def Waiting (s : State) : Prop :=
  s.workers = [] ∧ s.log = [] ∧ s.client.Completed = false ∧
    s.reactor ≠ ReactorPc.notStarted

/-- The state of the job of `completedInfo` after `BeginDownload`, the
reactor's loop guard and one round of the speed goroutine. -/
def completedJobState : State :=
  (run [Action.begin false, Action.reactorGuard, Action.tickerGuard, Action.tickerWake]
    (initState (NewClient completedInfo))).getD (initState (NewClient completedInfo))

/-! # Theorems -/

/-! ## Machine integers -/

theorem wrap64_of_isInt64 {x : Int} (h : isInt64 x) : wrap64 x = x := by
  unfold isInt64 at h; unfold wrap64; omega

theorem isInt64_wrap64 (x : Int) : isInt64 (wrap64 x) := by
  unfold isInt64 wrap64; omega

theorem wrap64_add_wrap64 (x y : Int) : wrap64 (wrap64 x + y) = wrap64 (x + y) := by
  unfold wrap64; omega

/-! ## The loop body -/

/-- Explicit form of the loop body on a chunk that is read and written
without error, when the remaining size computed at line 176 is not negative. -/
theorem loopBody_chunk (b : DownloadBlock) (cs : Int) (n : Nat) (err : ReadErr)
    (hn : n ≤ 1024) (herr : ∀ msg, err ≠ ReadErr.other msg)
    (hneed : 0 ≤ wrap64 (wrap64 (b.EndOffset + 1) - b.BeginOffset)) :
    loopBody b cs n err none =
      (let need := wrap64 (wrap64 (b.EndOffset + 1) - b.BeginOffset)
       let k : Int := min (n : Int) need
       let b2 : DownloadBlock :=
         { b with retryCount := 0, BeginOffset := wrap64 (b.BeginOffset + k),
                  DownloadedSize := wrap64 (b.DownloadedSize + k) }
       if need < n ∨ err = ReadErr.eof ∨ b.EndOffset < wrap64 (b.BeginOffset + k) then
         ⟨IterOutcome.finished, { b2 with Completed := true }, wrap64 (cs + k), k⟩
       else ⟨IterOutcome.again, b2, wrap64 (cs + k), k⟩) := by
  have h1 : ¬ (1024 < n) := by omega
  cases err with
  | other msg => exact absurd rfl (herr msg)
  | none =>
    simp only [loopBody, chunkSize, h1, if_false]
    by_cases hlt : wrap64 (wrap64 (b.EndOffset + 1) - b.BeginOffset) < (n : Int)
    · have hk : min (n : Int) (wrap64 (wrap64 (b.EndOffset + 1) - b.BeginOffset)) =
          wrap64 (wrap64 (b.EndOffset + 1) - b.BeginOffset) := min_eq_right (le_of_lt hlt)
      have h0 : ¬ (wrap64 (wrap64 (b.EndOffset + 1) - b.BeginOffset) < 0) := by omega
      simp [hlt, hk, h0]
    · have hk : min (n : Int) (wrap64 (wrap64 (b.EndOffset + 1) - b.BeginOffset)) = n :=
        min_eq_left (not_lt.mp hlt)
      have h0 : ¬ ((n : Int) < 0) := by omega
      simp [hlt, hk, h0]
  | eof =>
    simp only [loopBody, chunkSize, h1, if_false]
    by_cases hlt : wrap64 (wrap64 (b.EndOffset + 1) - b.BeginOffset) < (n : Int)
    · have hk : min (n : Int) (wrap64 (wrap64 (b.EndOffset + 1) - b.BeginOffset)) =
          wrap64 (wrap64 (b.EndOffset + 1) - b.BeginOffset) := min_eq_right (le_of_lt hlt)
      have h0 : ¬ (wrap64 (wrap64 (b.EndOffset + 1) - b.BeginOffset) < 0) := by omega
      simp [hlt, hk, h0]
    · have hk : min (n : Int) (wrap64 (wrap64 (b.EndOffset + 1) - b.BeginOffset)) = n :=
        min_eq_left (not_lt.mp hlt)
      have h0 : ¬ ((n : Int) < 0) := by omega
      simp [hlt, hk, h0]

/-- The remaining size of line 176 is exact on a block whose offsets satisfy
the progress invariant and whose sizes are `int64` values. -/
theorem needSize_exact (b : DownloadBlock) (init : Int)
    (he1 : isInt64 (b.EndOffset + 1)) (hfull : isInt64 (b.EndOffset - init + 1))
    (hinv : b.BeginOffset = init + b.DownloadedSize)
    (hle : b.BeginOffset ≤ b.EndOffset + 1) (hd0 : 0 ≤ b.DownloadedSize) :
    wrap64 (wrap64 (b.EndOffset + 1) - b.BeginOffset) = b.EndOffset + 1 - b.BeginOffset := by
  rw [wrap64_of_isInt64 he1]
  apply wrap64_of_isInt64
  unfold isInt64 at *
  omega

/-- C1. Block progress invariant of the read loop: on a block with
`BeginOffset = init + DownloadedSize`, `BeginOffset ≤ EndOffset + 1` and
`0 ≤ DownloadedSize` (the quantities named being `int64` values), one pass
through the loop body on a chunk of `n ≤ 1024` bytes writes exactly
`min n (EndOffset + 1 - BeginOffset)` bytes, advances `BeginOffset` and
`DownloadedSize` (and the client total) by that amount, keeps
`BeginOffset = init + DownloadedSize` and
`0 ≤ DownloadedSize ≤ EndOffset - init + 1`, does not decrease
`DownloadedSize`, and writes nothing past `EndOffset`. -/
theorem loopBody_block_progress (b : DownloadBlock) (init cs : Int) (n : Nat) (err : ReadErr)
    (hb : isInt64 b.BeginOffset) (he1 : isInt64 (b.EndOffset + 1))
    (hfull : isInt64 (b.EndOffset - init + 1))
    (hinv : b.BeginOffset = init + b.DownloadedSize)
    (hle : b.BeginOffset ≤ b.EndOffset + 1) (hd0 : 0 ≤ b.DownloadedSize)
    (hn : n ≤ 1024) (herr : ∀ msg, err ≠ ReadErr.other msg) :
    (loopBody b cs n err none).written = min (n : Int) (b.EndOffset + 1 - b.BeginOffset) ∧
    ((loopBody b cs n err none).outcome = IterOutcome.finished ∨
      (loopBody b cs n err none).outcome = IterOutcome.again) ∧
    (loopBody b cs n err none).block.BeginOffset =
      b.BeginOffset + (loopBody b cs n err none).written ∧
    (loopBody b cs n err none).block.DownloadedSize =
      b.DownloadedSize + (loopBody b cs n err none).written ∧
    (loopBody b cs n err none).clientSize = wrap64 (cs + (loopBody b cs n err none).written) ∧
    (loopBody b cs n err none).block.EndOffset = b.EndOffset ∧
    (loopBody b cs n err none).block.BeginOffset =
      init + (loopBody b cs n err none).block.DownloadedSize ∧
    0 ≤ (loopBody b cs n err none).block.DownloadedSize ∧
    (loopBody b cs n err none).block.DownloadedSize ≤ b.EndOffset - init + 1 ∧
    b.DownloadedSize ≤ (loopBody b cs n err none).block.DownloadedSize ∧
    b.BeginOffset + (loopBody b cs n err none).written ≤ b.EndOffset + 1 := by
  have hneed := needSize_exact b init he1 hfull hinv hle hd0
  have hneed0 : 0 ≤ wrap64 (wrap64 (b.EndOffset + 1) - b.BeginOffset) := by
    rw [hneed]; omega
  rw [loopBody_chunk b cs n err hn herr hneed0]
  simp only [hneed]
  have hk0 : 0 ≤ min (n : Int) (b.EndOffset + 1 - b.BeginOffset) := by
    apply le_min <;> omega
  have hkn : min (n : Int) (b.EndOffset + 1 - b.BeginOffset) ≤ b.EndOffset + 1 - b.BeginOffset :=
    min_le_right _ _
  have hwb : wrap64 (b.BeginOffset + min (n : Int) (b.EndOffset + 1 - b.BeginOffset)) =
      b.BeginOffset + min (n : Int) (b.EndOffset + 1 - b.BeginOffset) := by
    apply wrap64_of_isInt64; unfold isInt64 at *; omega
  have hwd : wrap64 (b.DownloadedSize + min (n : Int) (b.EndOffset + 1 - b.BeginOffset)) =
      b.DownloadedSize + min (n : Int) (b.EndOffset + 1 - b.BeginOffset) := by
    apply wrap64_of_isInt64; unfold isInt64 at *; omega
  simp only [hwb, hwd]
  split_ifs <;> simp <;> omega

/-- Witness of C1: the block `[0, 9]` with 4 bytes downloaded receives a chunk
of 1024 bytes, of which 6 are written. -/
theorem loopBody_block_progress_witness :
    (loopBody ⟨4, 9, 4, true, false, 0⟩ 4 1024 ReadErr.none none).written = min ((1024 : Nat) : Int) (9 + 1 - 4) ∧
    (loopBody ⟨4, 9, 4, true, false, 0⟩ 4 1024 ReadErr.none none).block.DownloadedSize = 10 :=
  have h := loopBody_block_progress ⟨4, 9, 4, true, false, 0⟩ 0 4 1024 ReadErr.none
    (by decide) (by decide) (by decide) (by decide) (by decide) (by decide) (by decide)
    (by intro msg h; cases h)
  ⟨h.1, by decide⟩

/-- C2, as stated, fails: the single block `[0, 9]` receives a 2xx response
whose body ends after 4 bytes; the read loop marks the block completed with
`DownloadedSize = 4`, not `9 - 0 + 1`. -/
theorem completed_on_early_eof :
    (run [Action.begin false,
          Action.attempt 0 (Attempt.response 200 [] 4 ReadErr.eof),
          Action.iter 0 none 0 ReadErr.eof]
        (initState (NewClient oneBlockInfo))).map
      (fun t => t.blocks.map (fun b => (b.Completed, b.DownloadedSize, b.EndOffset - 0 + 1))) =
    some [(true, 4, 10)] := by
  decide

/-- C2, amended. On a block that satisfies the progress invariant and is not
yet completed, a pass through the loop body on a chunk of `n` bytes sets
`Completed` exactly when the chunk covers the rest of the range or the read
reported end-of-stream, and `DownloadedSize` then equals
`EndOffset - init + 1` exactly when the chunk covers the rest of the range:
a block completed by an early end-of-stream has a smaller `DownloadedSize`. -/
theorem loopBody_completed_full (b : DownloadBlock) (init cs : Int) (n : Nat) (err : ReadErr)
    (hb : isInt64 b.BeginOffset) (he1 : isInt64 (b.EndOffset + 1))
    (hfull : isInt64 (b.EndOffset - init + 1))
    (hinv : b.BeginOffset = init + b.DownloadedSize)
    (hle : b.BeginOffset ≤ b.EndOffset + 1) (hd0 : 0 ≤ b.DownloadedSize)
    (hn : n ≤ 1024) (herr : ∀ msg, err ≠ ReadErr.other msg)
    (hc : b.Completed = false) :
    ((loopBody b cs n err none).block.Completed = true ↔
      (b.EndOffset + 1 - b.BeginOffset ≤ n ∨ err = ReadErr.eof)) ∧
    ((loopBody b cs n err none).block.DownloadedSize = b.EndOffset - init + 1 ↔
      b.EndOffset + 1 - b.BeginOffset ≤ n) ∧
    (n < b.EndOffset + 1 - b.BeginOffset →
      (loopBody b cs n err none).block.DownloadedSize < b.EndOffset - init + 1) := by
  have hneed := needSize_exact b init he1 hfull hinv hle hd0
  have hneed0 : 0 ≤ wrap64 (wrap64 (b.EndOffset + 1) - b.BeginOffset) := by
    rw [hneed]; omega
  rw [loopBody_chunk b cs n err hn herr hneed0]
  simp only [hneed]
  have hk0 : 0 ≤ min (n : Int) (b.EndOffset + 1 - b.BeginOffset) := by
    apply le_min <;> omega
  have hkn : min (n : Int) (b.EndOffset + 1 - b.BeginOffset) ≤ b.EndOffset + 1 - b.BeginOffset :=
    min_le_right _ _
  have hkl : min (n : Int) (b.EndOffset + 1 - b.BeginOffset) ≤ n := min_le_left _ _
  have hkc : min (n : Int) (b.EndOffset + 1 - b.BeginOffset) = n ∨
      min (n : Int) (b.EndOffset + 1 - b.BeginOffset) = b.EndOffset + 1 - b.BeginOffset :=
    min_choice _ _
  have hwb : wrap64 (b.BeginOffset + min (n : Int) (b.EndOffset + 1 - b.BeginOffset)) =
      b.BeginOffset + min (n : Int) (b.EndOffset + 1 - b.BeginOffset) := by
    apply wrap64_of_isInt64; unfold isInt64 at *; omega
  have hwd : wrap64 (b.DownloadedSize + min (n : Int) (b.EndOffset + 1 - b.BeginOffset)) =
      b.DownloadedSize + min (n : Int) (b.EndOffset + 1 - b.BeginOffset) := by
    apply wrap64_of_isInt64; unfold isInt64 at *; omega
  simp only [hwb, hwd]
  split_ifs with h
  · simp only [true_iff]
    refine ⟨?_, ?_, ?_⟩
    · rcases h with h | h | h
      · left; omega
      · right; exact h
      · left; omega
    · constructor <;> intro _ <;> omega
    · intro _; omega
  · simp only [hc, Bool.false_eq_true, false_iff]
    refine ⟨?_, ?_, ?_⟩
    · intro h2
      apply h
      rcases h2 with h2 | h2
      · right; right; omega
      · right; left; exact h2
    · constructor <;> intro _ <;> omega
    · intro _; omega

/-- Witness of the amended C2: the block `[0, 9]` and a chunk of 4 bytes that
ends the stream. -/
theorem loopBody_completed_full_witness :
    (loopBody (freshBlock 0 9) 0 4 ReadErr.eof none).block.Completed = true ∧
    (loopBody (freshBlock 0 9) 0 4 ReadErr.eof none).block.DownloadedSize < 9 - 0 + 1 :=
  have h := loopBody_completed_full (freshBlock 0 9) 0 0 4 ReadErr.eof
    (by decide) (by decide) (by decide) (by decide) (by decide) (by decide) (by decide)
    (by intro msg h; cases h) (by decide)
  ⟨h.1.mpr (Or.inr rfl), h.2.2 (by decide)⟩

/-! ## The failure sink -/

/-- C4, as stated, fails: on a client without an `onFailed` callback
`callFailed` leaves `Failed` false and `FailedMessage` empty. -/
theorem callFailed_without_callback :
    (callFailedAll (NewClient oneBlockInfo) ["disk full"]).1.Failed = false ∧
    (callFailedAll (NewClient oneBlockInfo) ["disk full"]).1.FailedMessage = "" := by
  decide

/-- C4, amended. Failure latch: on a client with `Failed = false` *and an
`onFailed` callback registered*, after `callFailed(e)` followed by any further
invocations `Failed` is true, `FailedMessage` is `e`, no other field changed,
`onFailed` was invoked exactly once, with `e`, and an invocation after the
first changes no field and invokes no callback. Without a registered callback
`callFailed` changes no field and invokes nothing. -/
theorem callFailed_latch (c : DownloaderClient) (e : String) (es : List String)
    (hF : c.Failed = false) :
    (c.hasOnFailed = true →
      callFailedAll c (e :: es) = ({ c with Failed := true, FailedMessage := e }, [e]) ∧
      ∀ e2, callFailed { c with Failed := true, FailedMessage := e } e2 =
        ({ c with Failed := true, FailedMessage := e }, false)) ∧
    (c.hasOnFailed = false → callFailedAll c (e :: es) = (c, [])) := by
  have latched : ∀ (d : DownloaderClient) (l : List String), d.Failed = true →
      callFailedAll d l = (d, []) := by
    intro d l hd
    induction l with
    | nil => rfl
    | cons x xs ih => simp [callFailedAll, callFailed, hd, ih]
  have noCallback : ∀ (d : DownloaderClient) (l : List String), d.hasOnFailed = false →
      callFailedAll d l = (d, []) := by
    intro d l hd
    induction l with
    | nil => rfl
    | cons x xs ih => simp [callFailedAll, callFailed, hd, ih]
  refine ⟨?_, fun h => noCallback c _ h⟩
  intro h
  refine ⟨?_, ?_⟩
  · simp [callFailedAll, callFailed, h, hF, latched]
  · intro e2
    simp [callFailed]

/-- Witness of the amended C4: three failure reports on a fresh client with a
callback. -/
theorem callFailed_latch_witness :
    callFailedAll { NewClient oneBlockInfo with hasOnFailed := true } ["a", "b", "c"] =
      ({ NewClient oneBlockInfo with hasOnFailed := true, Failed := true, FailedMessage := "a" },
        ["a"]) :=
  ((callFailed_latch { NewClient oneBlockInfo with hasOnFailed := true } "a" ["b", "c"]
    rfl).1 rfl).1

/-! ## Single steps of a worker -/

theorem getElem?_modifyAt {α : Type} (f : α → α) (l : List α) (k j : Nat) :
    (modifyAt f l k)[j]? = if j = k then l[j]?.map f else l[j]? := by
  induction l generalizing k j with
  | nil => simp [modifyAt]
  | cons x xs ih =>
    cases k with
    | zero =>
      cases j with
      | zero => simp [modifyAt]
      | succ j => simp [modifyAt]
    | succ k =>
      cases j with
      | zero => simp [modifyAt]
      | succ j => simp [modifyAt, ih]

theorem step_attempt_eq (s : State) (w k : Nat) (b : DownloadBlock) (uri : String) (a : Attempt)
    (hcr : s.crashed = false) (hw : s.workers[w]? = some ⟨k, WorkerPc.entry uri⟩)
    (hb : s.blocks[k]? = some b) :
    step (Action.attempt w a) s = some (downloadRequest s w k b uri a) := by
  simp [step, hcr, hw, hb]

theorem step_iter_eq (s : State) (w k : Nat) (b : DownloadBlock) (uri : String) (i : Nat)
    (err : ReadErr) (writeErr : Option String) (ni : Nat) (nerr : ReadErr)
    (hcr : s.crashed = false) (hw : s.workers[w]? = some ⟨k, WorkerPc.loop uri i err⟩)
    (hb : s.blocks[k]? = some b) :
    step (Action.iter w writeErr ni nerr) s =
      some (downloadLoop s w k b uri i err writeErr ni nerr) := by
  simp [step, hcr, hw, hb]

/-- A non-2xx response with `RefreshFunc` set and `retryCount < 5`: the
counter is incremented, the URI list replaced by the refresher's answer, and
`download` re-entered with the first URI of the new list; nothing is reported
to the failure sink. -/
theorem status_retry (s : State) (w k : Nat) (b : DownloadBlock) (uri : String)
    (status : Int) (u : String) (us : List String) (i : Nat) (err : ReadErr)
    (hcr : s.crashed = false) (hw : s.workers[w]? = some ⟨k, WorkerPc.entry uri⟩)
    (hb : s.blocks[k]? = some b)
    (hst : status < 200 ∨ 300 ≤ status) (hrc : b.retryCount < 5)
    (hrf : s.client.hasRefreshFunc = true) :
    ∃ t, step (Action.attempt w (Attempt.response status (u :: us) i err)) s = some t ∧
      t.blocks[k]? = some { b with retryCount := b.retryCount + 1 } ∧
      t.workers[w]? = some ⟨k, WorkerPc.entry u⟩ ∧
      t.client.Info.Uris = u :: us ∧
      t.client.Failed = s.client.Failed ∧
      t.log = Event.retry k u :: Event.request k uri b.BeginOffset b.EndOffset :: s.log := by
  refine ⟨_, step_attempt_eq s w k b uri _ hcr hw hb, ?_⟩
  have hst2 : (decide (status < 200) || decide (status ≥ 300)) = true := by
    rcases hst with h | h <;> simp [h]
  simp only [State.blocks] at hb
  simp [downloadRequest, hst2, hrc, hrf, State.emit, State.modifyBlock, State.setPc,
    State.blocks, getElem?_modifyAt, hb, hw]

/-- A non-2xx response with no `RefreshFunc`, or with `retryCount ≥ 5`: the
block's `Downloading` flag is cleared, `callFailed` is called with
"response status unsuccessful: <status>", and the worker goes to
`ch <- false`; `download` is not re-entered. -/
theorem status_failure (s : State) (w k : Nat) (b : DownloadBlock) (uri : String)
    (status : Int) (refreshed : List String) (i : Nat) (err : ReadErr)
    (hcr : s.crashed = false) (hw : s.workers[w]? = some ⟨k, WorkerPc.entry uri⟩)
    (hb : s.blocks[k]? = some b)
    (hst : status < 200 ∨ 300 ≤ status)
    (hno : s.client.hasRefreshFunc = false ∨ 5 ≤ b.retryCount) :
    ∃ t, step (Action.attempt w (Attempt.response status refreshed i err)) s = some t ∧
      t.blocks[k]? = some { b with Downloading := false } ∧
      t.workers[w]? = some ⟨k, WorkerPc.send false⟩ ∧
      t.client.Failed = (s.client.Failed || s.client.hasOnFailed) ∧
      (s.client.hasOnFailed = true → s.client.Failed = false →
        t.client.FailedMessage = "response status unsuccessful: " ++ toString status) ∧
      t.log = (if s.client.hasOnFailed && !s.client.Failed then
                [Event.onFailed ("response status unsuccessful: " ++ toString status)]
               else []) ++
        Event.callFailed ("response status unsuccessful: " ++ toString status) ::
        Event.request k uri b.BeginOffset b.EndOffset :: s.log := by
  refine ⟨_, step_attempt_eq s w k b uri _ hcr hw hb, ?_⟩
  have hst2 : (decide (status < 200) || decide (status ≥ 300)) = true := by
    rcases hst with h | h <;> simp [h]
  have hno2 : (s.client.hasRefreshFunc && decide (b.retryCount < 5)) = false := by
    rcases hno with h | h
    · simp [h]
    · have : ¬ b.retryCount < 5 := by omega
      simp [this]
  simp only [State.blocks] at hb
  cases hF : s.client.Failed <;> cases hO : s.client.hasOnFailed <;>
    simp [downloadRequest, hst2, hno2, State.emit, State.modifyBlock, State.setPc,
      State.blocks, State.reportFailure, callFailed, getElem?_modifyAt, hb, hw, hF, hO]

/-- A body read error with `retryCount < 5` while the job is downloading:
the counter is incremented and `download` re-entered with the URI this
invocation was called with; the URI list is neither consulted nor changed. -/
theorem read_retry (s : State) (w k : Nat) (b : DownloadBlock) (uri msg : String) (i : Nat)
    (writeErr : Option String) (ni : Nat) (nerr : ReadErr)
    (hcr : s.crashed = false)
    (hw : s.workers[w]? = some ⟨k, WorkerPc.loop uri i (ReadErr.other msg)⟩)
    (hb : s.blocks[k]? = some b)
    (hD : s.client.Downloading = true) (hrc : b.retryCount < 5) :
    ∃ t, step (Action.iter w writeErr ni nerr) s = some t ∧
      t.blocks[k]? = some { b with retryCount := b.retryCount + 1 } ∧
      t.workers[w]? = some ⟨k, WorkerPc.entry uri⟩ ∧
      t.client.Info.Uris = s.client.Info.Uris ∧
      t.client.Failed = s.client.Failed ∧
      t.crashed = false ∧
      t.log = Event.retry k uri :: s.log := by
  refine ⟨_, step_iter_eq s w k b uri i _ writeErr ni nerr hcr hw hb, ?_⟩
  simp only [State.blocks] at hb
  simp [downloadLoop, loopBody, hD, hrc, State.emit, State.modifyBlock, State.setPc,
    State.blocks, getElem?_modifyAt, hb, hw, hcr]

/-- A body read error with `retryCount ≥ 5` while the job is downloading: the
block's `Downloading` flag is cleared, `callFailed` is called with the read
error, and the worker goes to `ch <- false`. -/
theorem read_failure (s : State) (w k : Nat) (b : DownloadBlock) (uri msg : String) (i : Nat)
    (writeErr : Option String) (ni : Nat) (nerr : ReadErr)
    (hcr : s.crashed = false)
    (hw : s.workers[w]? = some ⟨k, WorkerPc.loop uri i (ReadErr.other msg)⟩)
    (hb : s.blocks[k]? = some b)
    (hD : s.client.Downloading = true) (hrc : 5 ≤ b.retryCount) :
    ∃ t, step (Action.iter w writeErr ni nerr) s = some t ∧
      t.blocks[k]? = some { b with Downloading := false } ∧
      t.workers[w]? = some ⟨k, WorkerPc.send false⟩ ∧
      t.client.Failed = (s.client.Failed || s.client.hasOnFailed) ∧
      (s.client.hasOnFailed = true → s.client.Failed = false →
        t.client.FailedMessage = msg) ∧
      t.log = (if s.client.hasOnFailed && !s.client.Failed then [Event.onFailed msg]
               else []) ++ Event.callFailed msg :: s.log := by
  refine ⟨_, step_iter_eq s w k b uri i _ writeErr ni nerr hcr hw hb, ?_⟩
  have hrc2 : ¬ b.retryCount < 5 := by omega
  simp only [State.blocks] at hb
  cases hF : s.client.Failed <;> cases hO : s.client.hasOnFailed <;>
    simp [downloadLoop, loopBody, hD, hrc2, State.emit, State.modifyBlock, State.setPc,
      State.blocks, State.reportFailure, callFailed, getElem?_modifyAt, hb, hw, hF, hO]

/-- A worker that finds `client.Downloading` false at the loop guard leaves
the loop: it writes nothing, reports nothing, clears its block's
`Downloading` flag, leaves the block's other fields alone and goes to
`ch <- true`. -/
theorem loop_observes_pause (s : State) (w k : Nat) (b : DownloadBlock) (uri : String)
    (i : Nat) (err : ReadErr) (writeErr : Option String) (ni : Nat) (nerr : ReadErr)
    (hcr : s.crashed = false) (hw : s.workers[w]? = some ⟨k, WorkerPc.loop uri i err⟩)
    (hb : s.blocks[k]? = some b) (hD : s.client.Downloading = false) :
    ∃ t, step (Action.iter w writeErr ni nerr) s = some t ∧
      t.blocks[k]? = some { b with Downloading := false } ∧
      t.workers[w]? = some ⟨k, WorkerPc.send true⟩ ∧
      t.log = s.log ∧
      t.client.DownloadedSize = s.client.DownloadedSize ∧
      t.client.Downloading = false ∧
      t.client.Completed = s.client.Completed ∧
      t.client.Failed = s.client.Failed ∧
      t.workers.length = s.workers.length := by
  refine ⟨_, step_iter_eq s w k b uri i err writeErr ni nerr hcr hw hb, ?_⟩
  have hlen : ∀ (f : Worker → Worker) (l : List Worker) (n : Nat),
      (modifyAt f l n).length = l.length := by
    intro f l
    induction l with
    | nil => intro n; rfl
    | cons x xs ih => intro n; cases n <;> simp [modifyAt, ih]
  simp only [State.blocks] at hb
  simp [downloadLoop, hD, State.modifyBlock, State.setPc, State.blocks, getElem?_modifyAt,
    hb, hw, hlen]

/-- The failure signal of a worker reaches the reactor once: the reactor
clears `client.Downloading` and returns, the worker has returned, and no
further step of that worker is enabled. -/
theorem deliver_failure (s : State) (w k : Nat)
    (hcr : s.crashed = false) (hw : s.workers[w]? = some ⟨k, WorkerPc.send false⟩)
    (hr : s.reactor = ReactorPc.recv) :
    ∃ t, step (Action.deliver w) s = some t ∧
      t.workers[w]? = some ⟨k, WorkerPc.exited⟩ ∧
      t.log = Event.signal k false :: s.log ∧
      t.client.Downloading = false ∧
      t.reactor = ReactorPc.returned ∧
      (∀ a, step (Action.attempt w a) t = none) ∧
      (∀ e i r, step (Action.iter w e i r) t = none) ∧
      step (Action.deliver w) t = none ∧
      step (Action.sendClosed w) t = none ∧
      (∀ e, step (Action.iterLoad w e) t = none) ∧
      (∀ i r, step (Action.iterStore w i r) t = none) := by
  have hw2 : (modifyAt (fun x : Worker => { x with pc := WorkerPc.exited }) s.workers w)[w]? =
      some ⟨k, WorkerPc.exited⟩ := by
    simp [getElem?_modifyAt, hw]
  refine ⟨reactorReceive ((s.setPc w WorkerPc.exited).emit (Event.signal k false)) false,
    by simp [step, hcr, hw, hr], ?_⟩
  simp [reactorReceive, State.setPc, State.emit, step, hw2, hcr]

/-- Whatever the response, the request of an attempt goes to the URI the
invocation of `download` was called with. -/
theorem attempt_request_uri (s : State) (w k : Nat) (b : DownloadBlock) (uri : String)
    (status : Int) (refreshed : List String) (i : Nat) (err : ReadErr)
    (hcr : s.crashed = false) (hw : s.workers[w]? = some ⟨k, WorkerPc.entry uri⟩)
    (hb : s.blocks[k]? = some b) :
    ∃ t, step (Action.attempt w (Attempt.response status refreshed i err)) s = some t ∧
      lastRequestUri t.log = some uri := by
  refine ⟨_, step_attempt_eq s w k b uri _ hcr hw hb, ?_⟩
  cases hF : s.client.Failed <;> cases hO : s.client.hasOnFailed <;>
    cases refreshed <;>
    simp only [downloadRequest, State.emit, State.modifyBlock, State.setPc,
      State.reportFailure, callFailed, hF, hO] <;>
    split_ifs <;> simp [lastRequestUri]

/-! ## C3: retry after a non-2xx response -/

/-- C3, as stated, fails: with no `RefreshFunc`, the first response of status
503 is not retried. The worker clears the block's flag, calls `callFailed`
and signals failure; `retryCount` stays 0, the run ends failed and not
completed, and the worker never issues the second request (the last action
of the schedule is not enabled, so the trace has 4 states). -/
theorem no_refresher_no_retry :
    (trace transient503NoRefresher
        (initState { NewClient oneBlockInfo with hasOnFailed := true })).map
      (fun t => (t.workers.map (fun x => x.pc), t.blocks.map (fun b => b.retryCount),
        t.client.Failed, t.client.Completed, countRetries t.log)) =
    [([WorkerPc.entry "U1"], [0], false, false, 0),
     ([WorkerPc.entry "U1"], [0], false, false, 0),
     ([WorkerPc.send false], [0], true, false, 0),
     ([WorkerPc.exited], [0], true, false, 0)] := by
  decide

/-- C3, amended. On a non-2xx response while `retryCount < 5`: *if a
`RefreshFunc` is configured*, the worker increments `retryCount`, replaces the
URI list by the refresher's answer and reissues the request to its first URI,
reporting no failure; *if none is configured*, the worker does not retry: it
clears the block's `Downloading` flag, calls `callFailed` with
"response status unsuccessful: <status>" and signals failure. With one block
and a refresher configured, a first response of status 503 and a second one of
status 200 with the full body end in success: `retryCount` is 0, 0, 1, 1, 0,
0, 0 along the run, `callFailed` is never called, the second request goes to
the refreshed URI. -/
theorem status_error_retry (s : State) (w k : Nat) (b : DownloadBlock) (uri : String)
    (status : Int) (u : String) (us : List String) (i : Nat) (err : ReadErr)
    (hcr : s.crashed = false) (hw : s.workers[w]? = some ⟨k, WorkerPc.entry uri⟩)
    (hb : s.blocks[k]? = some b)
    (hst : status < 200 ∨ 300 ≤ status) (hrc : b.retryCount < 5) :
    (s.client.hasRefreshFunc = true →
      ∃ t, step (Action.attempt w (Attempt.response status (u :: us) i err)) s = some t ∧
        t.blocks[k]? = some { b with retryCount := b.retryCount + 1 } ∧
        t.workers[w]? = some ⟨k, WorkerPc.entry u⟩ ∧
        t.client.Info.Uris = u :: us ∧
        t.client.Failed = s.client.Failed ∧
        t.log = Event.retry k u :: Event.request k uri b.BeginOffset b.EndOffset :: s.log) ∧
    (s.client.hasRefreshFunc = false →
      ∃ t, step (Action.attempt w (Attempt.response status (u :: us) i err)) s = some t ∧
        t.blocks[k]? = some { b with Downloading := false } ∧
        t.workers[w]? = some ⟨k, WorkerPc.send false⟩ ∧
        t.log = (if s.client.hasOnFailed && !s.client.Failed then
                  [Event.onFailed ("response status unsuccessful: " ++ toString status)]
                 else []) ++
          Event.callFailed ("response status unsuccessful: " ++ toString status) ::
          Event.request k uri b.BeginOffset b.EndOffset :: s.log) ∧
    ((trace transient503 (initState refreshingClient)).map
        (fun t => t.blocks.map (fun x => x.retryCount)) = [[0], [0], [1], [1], [0], [0], [0]] ∧
      (run transient503 (initState refreshingClient)).map
        (fun t => (t.client.Completed, t.client.Failed, countCallFailed t.log)) =
        some (true, false, 0) ∧
      (run transient503 (initState refreshingClient)).map
        (fun t => (t.blocks.map (fun x => (x.Completed, x.DownloadedSize)),
          lastRequestUri t.log)) =
        some ([(true, 10)], some "U2")) := by
  refine ⟨fun hrf => status_retry s w k b uri status u us i err hcr hw hb hst hrc hrf, ?_, ?_⟩
  · intro hrf
    obtain ⟨t, h1, h2, h3, _, _, h6⟩ :=
      status_failure s w k b uri status (u :: us) i err hcr hw hb hst (Or.inl hrf)
    exact ⟨t, h1, h2, h3, h6⟩
  · refine ⟨?_, ?_, ?_⟩
    · decide
    · decide
    · decide

/-- Witness of the amended C3: the first response of scenario `transient503`. -/
theorem status_error_retry_witness :
    ∃ t, step (Action.attempt 0 (Attempt.response 503 ("U2" :: ["U1"]) 0 ReadErr.none))
        (BeginDownload (initState refreshingClient)) = some t ∧
      t.workers[0]? = some ⟨0, WorkerPc.entry "U2"⟩ :=
  have h := (status_error_retry (BeginDownload (initState refreshingClient)) 0 0
    { freshBlock 0 9 with Downloading := true } "U1" 503 "U2" ["U1"] 0 ReadErr.none
    (by decide) (by decide) (by decide) (by decide) (by decide)).1 (by decide)
  match h with
  | ⟨t, h1, _, h3, _⟩ => ⟨t, h1, h3⟩

/-! ## C8: the URI of a retry -/

/-- C8, as stated, fails: the worker is dispatched with `U1`; the URI list is
then replaced by `[U2, U1]`; after a body read error the worker retries, and
the reissued request goes to `U1`, not to the current `uris[0] = U2`. -/
theorem read_error_retry_keeps_uri :
    (run readErrorAfterRotation (initState rotatingClient)).map
      (fun t => (t.client.Info.Uris.head?, lastRequestUri t.log, countRetries t.log)) =
    some (some "U2", some "U1", 1) := by
  decide

/-- C8, amended. A retry caused by a non-2xx response (with a `RefreshFunc`
configured) is sent to `uris[0]` of the list the refresher has just returned.
A retry caused by a body read error is sent to the URI the failed invocation
of `download` was called with, whatever the job's URI list is at that moment:
the list is neither read nor changed, and the next request carries the old
URI. -/
theorem retry_target_uri (s : State) (w k : Nat) (b : DownloadBlock) (uri : String)
    (hcr : s.crashed = false) (hb : s.blocks[k]? = some b) (hrc : b.retryCount < 5) :
    (∀ status u us i err,
      s.workers[w]? = some ⟨k, WorkerPc.entry uri⟩ → (status < 200 ∨ 300 ≤ status) →
      s.client.hasRefreshFunc = true →
      ∃ t, step (Action.attempt w (Attempt.response status (u :: us) i err)) s = some t ∧
        t.workers[w]? = some ⟨k, WorkerPc.entry u⟩ ∧
        t.client.Info.Uris.head? = some u) ∧
    (∀ msg i writeErr ni nerr,
      s.workers[w]? = some ⟨k, WorkerPc.loop uri i (ReadErr.other msg)⟩ →
      s.client.Downloading = true →
      ∃ t, step (Action.iter w writeErr ni nerr) s = some t ∧
        t.workers[w]? = some ⟨k, WorkerPc.entry uri⟩ ∧
        t.client.Info.Uris = s.client.Info.Uris ∧
        ∀ status refreshed i2 err2,
          ∃ t2, step (Action.attempt w (Attempt.response status refreshed i2 err2)) t = some t2 ∧
            lastRequestUri t2.log = some uri) := by
  constructor
  · intro status u us i err hw hst hrf
    obtain ⟨t, h1, _, h3, h4, _, _⟩ :=
      status_retry s w k b uri status u us i err hcr hw hb hst hrc hrf
    exact ⟨t, h1, h3, by simp [h4]⟩
  · intro msg i writeErr ni nerr hw hD
    obtain ⟨t, h1, h2, h3, h4, _, h6, _⟩ :=
      read_retry s w k b uri msg i writeErr ni nerr hcr hw hb hD hrc
    exact ⟨t, h1, h3, h4, fun status refreshed i2 err2 =>
      attempt_request_uri t w k _ uri status refreshed i2 err2 h6 h3 h2⟩

/-- Witness of the amended C8: the state of scenario `readErrorAfterRotation`
in which the read error is pending and the URI list has been replaced. -/
theorem retry_target_uri_witness :
    ∃ t, step (Action.iter 0 none 0 ReadErr.none) rotatedState = some t ∧
      t.workers[0]? = some ⟨0, WorkerPc.entry "U1"⟩ ∧
      t.client.Info.Uris = ["U2", "U1"] :=
  have h := (retry_target_uri rotatedState 0 0 { freshBlock 0 9 with Downloading := true } "U1"
    (by decide) (by decide) (by decide)).2 "connection reset" 0 none 0 ReadErr.none
    (by decide) (by decide)
  match h with
  | ⟨t, h1, h2, h3, _⟩ => ⟨t, h1, h2, h3.trans (by decide)⟩

/-! ## C9: pause -/

/-- C9, as stated, fails. In scenario `pauseMidStream` worker 0 has written
4 of 10 bytes and the request of worker 1 is in flight when `Pause` clears
`Downloading`. The response to worker 1 has status 500: `Failed` becomes true
after the pause. Worker 0 sees the cleared flag, clears its block's flag and
sends `true`; the reactor, which was blocked in its receive, takes the signal
for a success, claims the unfinished block 0 again and dispatches a third
worker. The states list `Downloading`, `Failed`, the number of workers ever
started and the blocks' `Downloading` flags after each action. -/
theorem pause_then_redispatch :
    (trace pauseMidStream (initState pausingClient)).map
      (fun t => (t.client.Downloading, t.client.Failed, t.workers.length,
        t.blocks.map (fun b => b.Downloading))) =
    [(true, false, 2, [true, true]), (true, false, 2, [true, true]),
     (true, false, 2, [true, true]), (true, false, 2, [true, true]),
     (false, false, 2, [true, true]), (false, true, 2, [true, false]),
     (false, true, 2, [false, false]), (false, true, 3, [true, false])] := by
  decide

/-- C9, amended. `Pause` clears `client.Downloading` and changes nothing
else (in particular neither `Completed` nor `Failed`), and a second `Pause`
changes nothing. A worker that observes the cleared flag at the guard of its
read loop writes no further bytes, reports no failure, leaves `Completed` and
`DownloadedSize` of its block as they are, clears the block's `Downloading`
flag and goes on to send `true`. The reactor, when it observes the cleared
flag at its own loop guard, closes the channel and ends without claiming a
block or dispatching a worker. A worker whose request is in flight is not
stopped by the flag: a non-2xx response that is not retried is still reported
to the failure sink, so `Failed` can become true after a pause. -/
theorem pause_is_cooperative (s : State) (hcr : s.crashed = false) :
    step Action.pause s = some { s with client := { s.client with Downloading := false } } ∧
    step Action.pause { s with client := { s.client with Downloading := false } } =
      some { s with client := { s.client with Downloading := false } } ∧
    (∀ w k b uri i err writeErr ni nerr,
      s.workers[w]? = some ⟨k, WorkerPc.loop uri i err⟩ → s.blocks[k]? = some b →
      s.client.Downloading = false →
      ∃ t, step (Action.iter w writeErr ni nerr) s = some t ∧
        t.blocks[k]? = some { b with Downloading := false } ∧
        t.workers[w]? = some ⟨k, WorkerPc.send true⟩ ∧
        t.log = s.log ∧
        t.client.DownloadedSize = s.client.DownloadedSize ∧
        t.client.Completed = s.client.Completed ∧
        t.client.Failed = s.client.Failed ∧
        t.workers.length = s.workers.length) ∧
    (s.reactor = ReactorPc.guard → s.client.Downloading = false →
      step Action.reactorGuard s = some { s with reactor := ReactorPc.closed }) ∧
    (∀ w k b uri status refreshed i err,
      s.workers[w]? = some ⟨k, WorkerPc.entry uri⟩ → s.blocks[k]? = some b →
      s.client.Downloading = false → (status < 200 ∨ 300 ≤ status) →
      (s.client.hasRefreshFunc = false ∨ 5 ≤ b.retryCount) →
      ∃ t, step (Action.attempt w (Attempt.response status refreshed i err)) s = some t ∧
        t.workers[w]? = some ⟨k, WorkerPc.send false⟩ ∧
        t.client.Failed = (s.client.Failed || s.client.hasOnFailed)) := by
  have hP : ∀ c : DownloaderClient, Pause c = { c with Downloading := false } := by
    intro c
    cases hD : c.Downloading
    · cases c; simp_all [Pause]
    · simp [Pause, hD]
  refine ⟨?_, ?_, ?_, ?_, ?_⟩
  · simp [step, hcr, hP]
  · simp [step, hcr, hP]
  · intro w k b uri i err writeErr ni nerr hw hb hD
    obtain ⟨t, h1, h2, h3, h4, h5, _, h7, h8, h9⟩ :=
      loop_observes_pause s w k b uri i err writeErr ni nerr hcr hw hb hD
    exact ⟨t, h1, h2, h3, h4, h5, h7, h8, h9⟩
  · intro hr hD
    simp [step, hcr, hr, hD]
  · intro w k b uri status refreshed i err hw hb _ hst hno
    obtain ⟨t, h1, _, h3, h4, _⟩ :=
      status_failure s w k b uri status refreshed i err hcr hw hb hst hno
    exact ⟨t, h1, h3, h4⟩

/-- Witness of the amended C9: `Pause` right after `BeginDownload`. -/
theorem pause_is_cooperative_witness :
    (step Action.pause (BeginDownload (initState (NewClient oneBlockInfo)))).map
      (fun t => (t.client.Downloading, t.client.Completed, t.client.Failed)) =
    some (false, false, false) :=
  (pause_is_cooperative (BeginDownload (initState (NewClient oneBlockInfo)))
    (by decide)).1 ▸ (by decide)

/-! ## Runs -/

/-- A property preserved by every step of a class of actions holds after
every schedule made of such actions. -/
theorem run_invariant_of (A : Action → Prop) (P : State → Prop)
    (hstep : ∀ a s t, A a → P s → step a s = some t → P t) :
    ∀ (as : List Action) (s t : State), (∀ a ∈ as, A a) → P s → run as s = some t → P t := by
  intro as
  induction as with
  | nil =>
    intro s t _ hs h
    simp only [run, Option.some.injEq] at h
    exact h ▸ hs
  | cons a as ih =>
    intro s t hA hs h
    simp only [run] at h
    cases hst : step a s with
    | none => simp [hst] at h
    | some u =>
      rw [hst] at h
      exact ih u t (fun x hx => hA x (List.mem_cons_of_mem _ hx))
        (hstep a s u (hA a (List.mem_cons_self _ _)) hs hst) h

/-- A property preserved by every step holds after every schedule. -/
theorem run_invariant (P : State → Prop)
    (hstep : ∀ a s t, P s → step a s = some t → P t) :
    ∀ (as : List Action) (s t : State), P s → run as s = some t → P t :=
  fun as s t hs h =>
    run_invariant_of (fun _ => True) P (fun a s t _ => hstep a s t) as s t
      (fun _ _ => trivial) hs h

/-! ## C7: a job whose blocks are all completed -/

theorem nextFree_all_completed (l : List DownloadBlock)
    (h : ∀ b ∈ l, b.Completed = true) : nextFree l = none := by
  induction l with
  | nil => rfl
  | cons b bs ih =>
    have hb : b.Completed = true := h b (List.mem_cons_self _ _)
    have hbs := ih (fun x hx => h x (List.mem_cons_of_mem _ hx))
    simp [nextFree, hb, hbs]

theorem dispatchInitial_none (n : Nat) (s : State) (h : getNextBlockN s.client.Info = none) :
    dispatchInitial n s = s := by
  induction n with
  | zero => rfl
  | succ n ih =>
    simp only [dispatchInitial, h]
    split_ifs
    · rfl
    · exact ih

/-- With every block completed, `BeginDownload` sets `Downloading`, seeds the
total, starts no worker and leaves the reactor at its loop guard. -/
theorem BeginDownload_all_completed (c : DownloaderClient)
    (hall : ∀ b ∈ c.Info.BlockList, b.Completed = true) :
    (BeginDownload (initState c)).workers = [] ∧
    (BeginDownload (initState c)).log = [] ∧
    (BeginDownload (initState c)).client.Completed = c.Completed ∧
    (BeginDownload (initState c)).client.Downloading = true ∧
    (BeginDownload (initState c)).reactor = ReactorPc.guard := by
  have h := dispatchInitial_none (threadCount c.Info).toNat
    { initState c with client := { c with
        Downloading := true,
        DownloadedSize := seedDownloaded c.DownloadedSize c.Info.BlockList } }
    (nextFree_all_completed _ hall)
  simp only [BeginDownload]
  simp only [initState] at h ⊢
  rw [h]
  simp

/-- Inversion of `step`: the action was enabled, and the new state is the
result of the function of the source that the action runs. -/
theorem step_cases (a : Action) (s t : State) (h : step a s = some t) :
    s.crashed = false ∧
    ((∃ d, a = Action.begin d ∧ s.reactor = ReactorPc.notStarted ∧
        t = if d then s else BeginDownload s) ∨
     (∃ w x k uri b, a = Action.attempt w x ∧ s.workers[w]? = some ⟨k, WorkerPc.entry uri⟩ ∧
        s.blocks[k]? = some b ∧ t = downloadRequest s w k b uri x) ∨
     (∃ w e ni nerr k uri i err b, a = Action.iter w e ni nerr ∧
        s.workers[w]? = some ⟨k, WorkerPc.loop uri i err⟩ ∧ s.blocks[k]? = some b ∧
        t = downloadLoop s w k b uri i err e ni nerr) ∨
     (∃ w e k uri i err b, a = Action.iterLoad w e ∧
        s.workers[w]? = some ⟨k, WorkerPc.loop uri i err⟩ ∧ s.blocks[k]? = some b ∧
        t = downloadLoopLoad s w k b uri i err e) ∨
     (∃ w ni nerr k uri i64 loaded eof b, a = Action.iterStore w ni nerr ∧
        s.workers[w]? = some ⟨k, WorkerPc.adding uri i64 loaded eof⟩ ∧ s.blocks[k]? = some b ∧
        t = downloadLoopStore s w k b uri i64 loaded eof ni nerr) ∨
     (∃ w k stat, a = Action.deliver w ∧ s.workers[w]? = some ⟨k, WorkerPc.send stat⟩ ∧
        s.reactor = ReactorPc.recv ∧
        t = reactorReceive ((s.setPc w WorkerPc.exited).emit (Event.signal k stat)) stat) ∨
     AuxStep a s t) := by
  have hcr : s.crashed = false := by
    cases hc : s.crashed
    · rfl
    · simp [step, hc] at h
  refine ⟨hcr, ?_⟩
  cases a with
  | begin d =>
    left
    simp only [step, hcr, Bool.false_eq_true, if_false] at h
    by_cases hr : s.reactor = ReactorPc.notStarted
    · simp only [hr, if_true] at h
      refine ⟨d, rfl, hr, ?_⟩
      cases d <;> simp_all
    · simp [hr] at h
  | attempt w x =>
    right; left
    simp only [step, hcr, Bool.false_eq_true, if_false] at h
    split at h
    · split at h
      · rename_i _ k uri hw _ b hb
        simp only [Option.some.injEq] at h
        exact ⟨w, x, k, uri, b, rfl, hw, hb, h.symm⟩
      · simp at h
    · simp at h
  | iter w e ni nerr =>
    right; right; left
    simp only [step, hcr, Bool.false_eq_true, if_false] at h
    split at h
    · split at h
      · rename_i _ k uri i err hw _ b hb
        simp only [Option.some.injEq] at h
        exact ⟨w, e, ni, nerr, k, uri, i, err, b, rfl, hw, hb, h.symm⟩
      · simp at h
    · simp at h
  | iterLoad w e =>
    right; right; right; left
    simp only [step, hcr, Bool.false_eq_true, if_false] at h
    split at h
    · split at h
      · rename_i _ k uri i err hw _ b hb
        simp only [Option.some.injEq] at h
        exact ⟨w, e, k, uri, i, err, b, rfl, hw, hb, h.symm⟩
      · simp at h
    · simp at h
  | iterStore w ni nerr =>
    right; right; right; right; left
    simp only [step, hcr, Bool.false_eq_true, if_false] at h
    split at h
    · split at h
      · rename_i _ k uri i64 loaded eof hw _ b hb
        simp only [Option.some.injEq] at h
        exact ⟨w, ni, nerr, k, uri, i64, loaded, eof, b, rfl, hw, hb, h.symm⟩
      · simp at h
    · simp at h
  | deliver w =>
    right; right; right; right; right; left
    simp only [step, hcr, Bool.false_eq_true, if_false] at h
    split at h
    · rename_i k stat hw
      by_cases hr : s.reactor = ReactorPc.recv
      · simp only [hr, if_true, Option.some.injEq] at h
        exact ⟨w, k, stat, rfl, hw, hr, h.symm⟩
      · simp [hr] at h
    · simp at h
  | sendClosed w =>
    right; right; right; right; right; right
    simp only [step, hcr, Bool.false_eq_true, if_false] at h
    split at h
    · by_cases hr : s.reactor = ReactorPc.closed
      · simp only [hr, if_true, Option.some.injEq] at h
        subst h
        simp [AuxStep, hr]
      · simp [hr] at h
    · simp at h
  | reactorGuard =>
    right; right; right; right; right; right
    simp only [step, hcr, Bool.false_eq_true, if_false] at h
    by_cases hr : s.reactor = ReactorPc.guard
    · simp only [hr, if_true, Option.some.injEq] at h
      subst h
      simp [AuxStep, hr]
    · simp [hr] at h
  | tickerGuard =>
    right; right; right; right; right; right
    simp only [step, hcr, Bool.false_eq_true, if_false] at h
    by_cases hr : s.ticker = TickerPc.guard
    · simp only [hr, if_true, Option.some.injEq] at h
      subst h
      simp [AuxStep]
    · simp [hr] at h
  | tickerWake =>
    right; right; right; right; right; right
    simp only [step, hcr, Bool.false_eq_true, if_false] at h
    split at h
    · simp only [Option.some.injEq] at h
      subst h
      simp [AuxStep]
    · simp at h
  | refresh uris =>
    right; right; right; right; right; right
    simp only [step, hcr, Bool.false_eq_true, if_false] at h
    split at h
    · by_cases hr : s.client.RefreshTime < 0
      · simp only [hr, if_true, Option.some.injEq] at h
        subst h
        simp [AuxStep]
      · simp only [hr, if_false, Option.some.injEq] at h
        subst h
        simp [AuxStep]
    · cases hD : s.client.Downloading
      · simp only [hD, Bool.not_false, if_true, Option.some.injEq] at h
        subst h
        simp [AuxStep]
      · simp only [hD, Bool.not_true, Bool.false_eq_true, if_false, Option.some.injEq] at h
        subst h
        simp [AuxStep, hD]
    · simp at h
  | pause =>
    right; right; right; right; right; right
    simp only [step, hcr, Bool.false_eq_true, if_false, Option.some.injEq] at h
    subst h
    cases hD : s.client.Downloading <;> simp [AuxStep, Pause, hD]
theorem waiting_step (a : Action) (s t : State) (hs : Waiting s) (h : step a s = some t) :
    Waiting t ∧ (a ≠ Action.pause → s.client.Downloading = true →
      t.client.Downloading = true) := by
  obtain ⟨hw, hl, hc, hr⟩ := hs
  obtain ⟨_, h | h | h | h | h | h | h⟩ := step_cases a s t h
  · obtain ⟨d, _, hr2, _⟩ := h
    exact absurd hr2 hr
  · obtain ⟨w, x, k, uri, b, _, hw2, _⟩ := h
    simp [hw] at hw2
  · obtain ⟨w, e, ni, nerr, k, uri, i, err, b, _, hw2, _⟩ := h
    simp [hw] at hw2
  · obtain ⟨w, e, k, uri, i, err, b, _, hw2, _⟩ := h
    simp [hw] at hw2
  · obtain ⟨w, ni, nerr, k, uri, i64, loaded, eof, b, _, hw2, _⟩ := h
    simp [hw] at hw2
  · obtain ⟨w, k, stat, _, hw2, _⟩ := h
    simp [hw] at hw2
  · obtain ⟨h1, h2, _, _, h5, _, _, _, _, _, h11, h12⟩ := h
    refine ⟨⟨h1.trans hw, h2.trans hl, h5.trans hc, ?_⟩, ?_⟩
    · rcases h12 with h12 | ⟨_, _, h12⟩
      · rw [h12]; exact hr
      · rw [h12]; split_ifs <;> simp
    · intro hp hD
      rcases h11 with h11 | ⟨h11, _⟩
      · rw [h11]; exact hD
      · exact absurd h11 hp

/-- C7 fails on the code: when every block is already completed at the call
of `BeginDownload`, no worker is started, so nothing is ever sent on the
channel and the reactor, which tests `allDownloaded` only after a receive,
waits forever. After every schedule `Completed` is still false, `onCompleted`
has not been invoked (the event log is empty: no request either), no worker
exists, and `Downloading` is still true unless `Pause` was called. -/
theorem all_completed_never_completes (c : DownloaderClient) (acts : List Action) (t : State)
    (hall : ∀ b ∈ c.Info.BlockList, b.Completed = true) (hC : c.Completed = false)
    (hrun : run (Action.begin false :: acts) (initState c) = some t) :
    t.client.Completed = false ∧ t.log = [] ∧ t.workers = [] ∧
    (Action.pause ∉ acts → t.client.Downloading = true) := by
  obtain ⟨b1, b2, b3, b4, b5⟩ := BeginDownload_all_completed c hall
  have hstep : step (Action.begin false) (initState c) = some (BeginDownload (initState c)) := by
    simp [step, initState]
  simp only [run, hstep, Option.some_bind] at hrun
  have hW : Waiting (BeginDownload (initState c)) :=
    ⟨b1, b2, b3.trans hC, by rw [b5]; simp⟩
  have h1 := run_invariant Waiting (fun a s t hs h => (waiting_step a s t hs h).1)
    acts _ t hW hrun
  refine ⟨h1.2.2.1, h1.2.1, h1.1, ?_⟩
  intro hp
  have h2 := run_invariant_of (fun a => a ≠ Action.pause)
    (fun s => Waiting s ∧ s.client.Downloading = true)
    (fun a s t ha hs h =>
      ⟨(waiting_step a s t hs.1 h).1, (waiting_step a s t hs.1 h).2 ha hs.2⟩)
    acts _ t (fun a ha heq => hp (heq ▸ ha)) ⟨hW, b4⟩ hrun
  exact h2.2

/-- The failing input of C7 evaluated: one block, already completed; after
`BeginDownload` the reactor reaches its receive and the speed goroutine runs,
but the job stays `Downloading`, not `Completed`, and no delivery is enabled. -/
theorem all_completed_never_completes_witness :
    completedJobState.client.Completed = false ∧ completedJobState.log = [] ∧
    completedJobState.client.Downloading = true :=
  have h := all_completed_never_completes (NewClient completedInfo)
    [Action.reactorGuard, Action.tickerGuard, Action.tickerWake] completedJobState
    (by decide) (by decide) (by decide)
  ⟨h.1, h.2.1, h.2.2.2 (by decide)⟩

/-! ## C10: terminal mutual exclusion -/

/-- C10 fails on the code. In scenario `failureRacesCompletion` the failure of
the first worker is latched by `callFailed` (and `onFailed` invoked) while its
`false` is still unsent; two success signals are received meanwhile and the
reactor completes the job: `Completed` and `Failed` are both true and both
callbacks have been invoked. The states list `Completed`, `Failed` and the
numbers of `onCompleted` and `onFailed` invocations after each action. -/
theorem completed_and_failed :
    (trace failureRacesCompletion (initState twoBlockClient)).map
      (fun t => (t.client.Completed, t.client.Failed, countOnCompleted t.log,
        countOnFailed t.log)) =
    [(false, false, 0, 0), (false, false, 0, 0), (false, true, 0, 1), (false, true, 0, 1),
     (false, true, 0, 1), (false, true, 0, 1), (false, true, 0, 1), (false, true, 0, 1),
     (false, true, 0, 1), (true, true, 1, 1)] := by
  decide

/-! ## C5: the retry bound -/

theorem mem_modifyAt {α : Type} (f : α → α) (l : List α) (i : Nat) (x : α)
    (h : x ∈ modifyAt f l i) : x ∈ l ∨ ∃ y ∈ l, x = f y := by
  induction l generalizing i with
  | nil => simp [modifyAt] at h
  | cons a as ih =>
    cases i with
    | zero =>
      simp only [modifyAt, List.mem_cons] at h
      rcases h with h | h
      · exact Or.inr ⟨a, List.mem_cons_self _ _, h⟩
      · exact Or.inl (List.mem_cons_of_mem _ h)
    | succ i =>
      simp only [modifyAt, List.mem_cons] at h
      rcases h with h | h
      · exact Or.inl (h ▸ List.mem_cons_self _ _)
      · rcases ih i h with h2 | ⟨y, hy, h2⟩
        · exact Or.inl (List.mem_cons_of_mem _ h2)
        · exact Or.inr ⟨y, List.mem_cons_of_mem _ hy, h2⟩

theorem modifyAt_congr {α : Type} (f g : α → α) (l : List α) (k : Nat)
    (h : ∀ x, l[k]? = some x → f x = g x) : modifyAt f l k = modifyAt g l k := by
  induction l generalizing k with
  | nil => rfl
  | cons a as ih =>
    cases k with
    | zero => simp [modifyAt, h a (by simp)]
    | succ k =>
      simp only [modifyAt, List.cons.injEq, true_and]
      exact ih k (fun x hx => h x (by simpa using hx))

theorem retriesSince_neutral (k : Nat) (e : Event) (log : List Event)
    (h : e.neutral = true) : retriesSince k (e :: log) = retriesSince k log := by
  cases e <;> simp_all [retriesSince, Event.neutral]

theorem claim_mem_neutral (k : Nat) (e : Event) (log : List Event)
    (h : e.neutral = true) : Event.claim k ∈ e :: log ↔ Event.claim k ∈ log := by
  cases e <;> simp_all [Event.neutral]

theorem RetryOK.setPc {ws : List Worker} {bs : List DownloadBlock} {log : List Event}
    (h : RetryOK ws bs log) (i : Nat) (pc : WorkerPc) :
    RetryOK (modifyAt (fun x => { x with pc := pc }) ws i) bs log := by
  refine ⟨?_, h.2⟩
  intro w hw
  rcases mem_modifyAt _ _ _ _ hw with hw | ⟨y, hy, rfl⟩
  · exact h.1 w hw
  · exact h.1 y hy

theorem RetryOK.neutral {ws : List Worker} {bs : List DownloadBlock} {log : List Event}
    (h : RetryOK ws bs log) (e : Event) (he : e.neutral = true) :
    RetryOK ws bs (e :: log) := by
  refine ⟨fun w hw => List.mem_cons_of_mem _ (h.1 w hw), ?_⟩
  intro k b hb hc
  rw [retriesSince_neutral k e log he]
  exact h.2 k b hb ((claim_mem_neutral k e log he).mp hc)

theorem RetryOK.modifyBlock {ws : List Worker} {bs : List DownloadBlock} {log : List Event}
    (h : RetryOK ws bs log) (k : Nat) (f : DownloadBlock → DownloadBlock)
    (hf : ∀ x, bs[k]? = some x → (f x).retryCount = x.retryCount) :
    RetryOK ws (modifyAt f bs k) log := by
  refine ⟨h.1, ?_⟩
  intro j b hb hc
  rw [getElem?_modifyAt] at hb
  split_ifs at hb with hj
  · subst hj
    cases hx : bs[j]? with
    | none => simp [hx] at hb
    | some x =>
      simp only [hx, Option.map_some', Option.some.injEq] at hb
      subst hb
      rw [hf x hx]
      exact h.2 j x hx hc
  · exact h.2 j b hb hc

theorem RetryOK.claim {ws : List Worker} {bs : List DownloadBlock} {log : List Event}
    (h : RetryOK ws bs log) (k : Nat) :
    RetryOK ws (modifyAt (fun b => { b with Downloading := true, retryCount := 0 }) bs k)
      (Event.claim k :: log) := by
  refine ⟨fun w hw => List.mem_cons_of_mem _ (h.1 w hw), ?_⟩
  intro j b hb hc
  rw [getElem?_modifyAt] at hb
  split_ifs at hb with hj
  · subst hj
    cases hx : bs[j]? with
    | none => simp [hx] at hb
    | some x =>
      simp only [hx, Option.map_some', Option.some.injEq] at hb
      subst hb
      simp [retriesSince]
  · have hc2 : Event.claim j ∈ log := by
      simp only [List.mem_cons, Event.claim.injEq] at hc
      rcases hc with hc | hc
      · exact absurd hc hj
      · exact hc
    have := h.2 j b hb hc2
    simp only [retriesSince]
    have hkj : ¬ k = j := fun e => hj e.symm
    simp only [hkj, if_false]
    exact this

theorem RetryOK.spawn {ws : List Worker} {bs : List DownloadBlock} {log : List Event}
    (h : RetryOK ws bs log) (k : Nat) (pc : WorkerPc) (hk : Event.claim k ∈ log) :
    RetryOK (ws ++ [⟨k, pc⟩]) bs log := by
  refine ⟨?_, h.2⟩
  intro w hw
  simp only [List.mem_append, List.mem_singleton] at hw
  rcases hw with hw | rfl
  · exact h.1 w hw
  · exact hk

theorem RetryOK.retry {ws : List Worker} {bs : List DownloadBlock} {log : List Event}
    (h : RetryOK ws bs log) (k : Nat) (b : DownloadBlock) (u : String)
    (hb : bs[k]? = some b) (hrc : b.retryCount < 5) (hk : Event.claim k ∈ log) :
    RetryOK ws (modifyAt (fun x => { x with retryCount := x.retryCount + 1 }) bs k)
      (Event.retry k u :: log) := by
  refine ⟨fun w hw => List.mem_cons_of_mem _ (h.1 w hw), ?_⟩
  intro j c hc hcl
  have hcl2 : Event.claim j ∈ log := by simpa using hcl
  rw [getElem?_modifyAt] at hc
  split_ifs at hc with hj
  · subst hj
    simp only [hb, Option.map_some', Option.some.injEq] at hc
    subst hc
    have := h.2 j b hb hk
    simp only [retriesSince, if_true]
    push_cast
    omega
  · have := h.2 j c hc hcl2
    have hkj : ¬ k = j := fun e => hj e.symm
    simp only [retriesSince, hkj, if_false]
    exact this

theorem RetryOK.read {ws : List Worker} {bs : List DownloadBlock} {log : List Event}
    (h : RetryOK ws bs log) (k i : Nat) (f : DownloadBlock → DownloadBlock)
    (hf : ∀ x, bs[k]? = some x → (f x).retryCount = 0) :
    RetryOK ws (modifyAt f bs k) (Event.read k i :: log) := by
  refine ⟨fun w hw => List.mem_cons_of_mem _ (h.1 w hw), ?_⟩
  intro j c hc hcl
  have hcl2 : Event.claim j ∈ log := by simpa using hcl
  rw [getElem?_modifyAt] at hc
  split_ifs at hc with hj
  · subst hj
    cases hx : bs[j]? with
    | none => simp [hx] at hc
    | some x =>
      simp only [hx, Option.map_some', Option.some.injEq] at hc
      subst hc
      simp [retriesSince, hf x hx]
  · have := h.2 j c hc hcl2
    have hkj : ¬ k = j := fun e => hj e.symm
    simp only [retriesSince, hkj, if_false]
    exact this

theorem loopBody_retryCount (b : DownloadBlock) (cs : Int) (i : Nat) (err : ReadErr)
    (writeErr : Option String) :
    ((loopBody b cs i err writeErr).outcome = IterOutcome.retry →
      b.retryCount < 5 ∧
      (loopBody b cs i err writeErr).block = { b with retryCount := b.retryCount + 1 }) ∧
    (∀ msg, (loopBody b cs i err writeErr).outcome = IterOutcome.readFailed msg →
      (loopBody b cs i err writeErr).block.retryCount = b.retryCount) ∧
    ((loopBody b cs i err writeErr).outcome ≠ IterOutcome.retry →
      (∀ msg, (loopBody b cs i err writeErr).outcome ≠ IterOutcome.readFailed msg) →
      (loopBody b cs i err writeErr).block.retryCount = 0) := by
  cases err with
  | other msg =>
    simp only [loopBody]
    split_ifs with h
    · simp [h]
    · simp
  | none =>
    cases writeErr <;> simp only [loopBody] <;> split_ifs <;> simp
  | eof =>
    cases writeErr <;> simp only [loopBody] <;> split_ifs <;> simp

theorem retryInv_reportFailure {s : State} (h : RetryInv s) (msg : String) :
    RetryInv (s.reportFailure msg) := by
  unfold RetryInv at h ⊢
  by_cases hc : (s.client.hasOnFailed && !s.client.Failed) = true
  · simp only [State.reportFailure, callFailed, State.emit, hc, if_true]
    exact (h.neutral (Event.callFailed msg) rfl).neutral (Event.onFailed msg) rfl
  · simp only [State.reportFailure, callFailed, State.emit, hc, if_false]
    exact h.neutral (Event.callFailed msg) rfl

theorem retryInv_dispatchInitial (n : Nat) :
    ∀ s : State, RetryInv s → RetryInv (dispatchInitial n s) := by
  induction n with
  | zero => intro s h; exact h
  | succ n ih =>
    intro s h
    rw [dispatchInitial]
    split_ifs
    · exact h
    · split
      · exact ih s h
      · rename_i k _
        split
        · exact RetryOK.claim h k
        · rename_i u _ _
          apply ih
          exact ((RetryOK.claim h k).spawn k (WorkerPc.entry u)
            (List.mem_cons_self _ _)).neutral (Event.spawn k u) rfl

theorem retryInv_BeginDownload {s : State} (h : RetryInv s) : RetryInv (BeginDownload s) := by
  have h1 := retryInv_dispatchInitial (threadCount s.client.Info).toNat
    { s with client := { s.client with
        Downloading := true,
        DownloadedSize := seedDownloaded s.client.DownloadedSize s.client.Info.BlockList } } h
  simp only [BeginDownload]
  split_ifs <;> exact h1

theorem RetryOK.bump {ws : List Worker} {bs : List DownloadBlock} {log : List Event}
    (h : RetryOK ws bs log) (k : Nat) (b : DownloadBlock)
    (hb : bs[k]? = some b) (hrc : b.retryCount < 5) :
    RetryOK ws (modifyAt (fun x => { x with retryCount := x.retryCount + 1 }) bs k) log := by
  refine ⟨h.1, ?_⟩
  intro j c hc hcl
  rw [getElem?_modifyAt] at hc
  split_ifs at hc with hj
  · subst hj
    simp only [hb, Option.map_some', Option.some.injEq] at hc
    subst hc
    have := h.2 j b hb hcl
    simp only
    omega
  · exact h.2 j c hc hcl

theorem retryInv_setPc {s : State} (h : RetryInv s) (w : Nat) (pc : WorkerPc) :
    RetryInv (s.setPc w pc) :=
  RetryOK.setPc h w pc

theorem retryInv_emit {s : State} (h : RetryInv s) (e : Event) (he : e.neutral = true) :
    RetryInv (s.emit e) :=
  RetryOK.neutral h e he

theorem retryInv_modifyBlock {s : State} (h : RetryInv s) (k : Nat)
    (f : DownloadBlock → DownloadBlock)
    (hf : ∀ x, s.blocks[k]? = some x → (f x).retryCount = x.retryCount) :
    RetryInv (s.modifyBlock k f) :=
  RetryOK.modifyBlock h k f hf

theorem worker_claimed {s : State} (h : RetryInv s) (w : Nat) (x : Worker)
    (hw : s.workers[w]? = some x) : Event.claim x.block ∈ s.log :=
  h.1 x (List.getElem?_mem hw)

theorem retryInv_downloadRequest {s : State} (h : RetryInv s) (w k : Nat) (b : DownloadBlock)
    (uri : String) (a : Attempt)
    (hw : s.workers[w]? = some ⟨k, WorkerPc.entry uri⟩) (hb : s.blocks[k]? = some b) :
    RetryInv (downloadRequest s w k b uri a) := by
  have hk : Event.claim k ∈ s.log := worker_claimed h w _ hw
  cases a with
  | requestErr msg => exact retryInv_setPc (retryInv_reportFailure h msg) _ _
  | openErr msg => exact retryInv_setPc (retryInv_reportFailure h msg) _ _
  | seekErr msg => exact retryInv_setPc (retryInv_reportFailure h msg) _ _
  | doErr msg =>
    exact retryInv_setPc (retryInv_reportFailure
      (retryInv_emit h (Event.request k uri b.BeginOffset b.EndOffset) rfl) msg) _ _
  | response status refreshed i err =>
    have h1 : RetryInv (s.emit (Event.request k uri b.BeginOffset b.EndOffset)) :=
      retryInv_emit h _ rfl
    simp only [downloadRequest]
    split_ifs with hst hrf
    · have hrc : b.retryCount < 5 := by
        simp only [Bool.and_eq_true, decide_eq_true_eq] at hrf
        exact hrf.2
      cases refreshed with
      | nil => exact RetryOK.bump h1 k b hb hrc
      | cons u us =>
        exact RetryOK.setPc (RetryOK.retry h1 k b u hb hrc (List.mem_cons_of_mem _ hk)) w _
    · exact retryInv_setPc (retryInv_reportFailure
        (retryInv_modifyBlock h1 k (fun x => { x with Downloading := false })
          (fun _ _ => rfl)) _) _ _
    · exact retryInv_setPc h1 _ _

theorem retryInv_downloadLoop {s : State} (h : RetryInv s) (w k : Nat) (b : DownloadBlock)
    (uri : String) (i : Nat) (err : ReadErr) (writeErr : Option String) (ni : Nat)
    (nerr : ReadErr)
    (hw : s.workers[w]? = some ⟨k, WorkerPc.loop uri i err⟩) (hb : s.blocks[k]? = some b) :
    RetryInv (downloadLoop s w k b uri i err writeErr ni nerr) := by
  have hk : Event.claim k ∈ s.log := worker_claimed h w _ hw
  obtain ⟨hR, hF, hO⟩ := loopBody_retryCount b s.client.DownloadedSize i err writeErr
  have hread : RetryOK s.workers
      (modifyAt (fun _ => (loopBody b s.client.DownloadedSize i err writeErr).block)
        s.client.Info.BlockList k) (Event.read k i :: s.log) →
      (loopBody b s.client.DownloadedSize i err writeErr).outcome ≠ IterOutcome.retry →
      (∀ msg, (loopBody b s.client.DownloadedSize i err writeErr).outcome ≠
        IterOutcome.readFailed msg) → True := fun _ _ _ => trivial
  simp only [downloadLoop]
  split_ifs with hD
  · exact retryInv_setPc (retryInv_modifyBlock h k (fun x => { x with Downloading := false })
      (fun _ _ => rfl)) _ _
  · split
    · rename_i hout
      obtain ⟨hrc, hblock⟩ := hR hout
      have hm : modifyAt (fun _ => (loopBody b s.client.DownloadedSize i err writeErr).block)
          s.client.Info.BlockList k =
          modifyAt (fun x => { x with retryCount := x.retryCount + 1 })
            s.client.Info.BlockList k := by
        apply modifyAt_congr
        intro x hx
        have : x = b := by
          have := hx.symm.trans hb
          simpa using this
        rw [hblock, this]
      have := RetryOK.retry h k b uri hb hrc hk
      rw [← hm] at this
      exact RetryOK.setPc this w _
    · rename_i msg hout
      exact retryInv_setPc (retryInv_reportFailure
        (retryInv_modifyBlock h k _ (fun x hx => by
          have : x = b := by
            have := hx.symm.trans hb
            simpa using this
          rw [this]; exact hF msg hout)) msg) _ _
    · rename_i hout
      have h0 := hO (by rw [hout]; simp) (by intro m; rw [hout]; simp)
      exact RetryOK.read h k i _ (fun _ _ => h0)
    · rename_i e hout
      have h0 := hO (by rw [hout]; simp) (by intro m; rw [hout]; simp)
      have h1 : RetryInv ((s.modifyBlock k
          (fun _ => (loopBody b s.client.DownloadedSize i err writeErr).block)).emit
          (Event.read k i)) := RetryOK.read h k i _ (fun _ _ => h0)
      exact retryInv_setPc (retryInv_reportFailure h1 e) _ _
    · rename_i hout
      have h0 := hO (by rw [hout]; simp) (by intro m; rw [hout]; simp)
      have h1 := RetryOK.neutral (RetryOK.read h k i _ (fun _ _ => h0))
        (Event.write k b.BeginOffset
          (loopBody b s.client.DownloadedSize i err writeErr).written) rfl
      exact RetryOK.setPc (RetryOK.modifyBlock h1 k (fun x => { x with Downloading := false })
        (fun _ _ => rfl)) w _
    · rename_i hout
      have h0 := hO (by rw [hout]; simp) (by intro m; rw [hout]; simp)
      have h1 := RetryOK.neutral (RetryOK.read h k i _ (fun _ _ => h0))
        (Event.write k b.BeginOffset
          (loopBody b s.client.DownloadedSize i err writeErr).written) rfl
      exact RetryOK.setPc h1 w _

theorem retryInv_reactorReceive {s : State} (h : RetryInv s) (stat : Bool) :
    RetryInv (reactorReceive s stat) := by
  simp only [reactorReceive]
  split
  · exact h
  · split
    · split
      · split
        · exact RetryOK.neutral h Event.onCompleted rfl
        · exact h
      · exact h
    · rename_i k _
      split
      · exact RetryOK.claim h k
      · rename_i u _ _
        exact ((RetryOK.claim h k).spawn k (WorkerPc.entry u)
          (List.mem_cons_self _ _)).neutral (Event.spawn k u) rfl

theorem retryInv_downloadLoopLoad {s : State} (h : RetryInv s) (w k : Nat) (b : DownloadBlock)
    (uri : String) (i : Nat) (err : ReadErr) (writeErr : Option String)
    (hw : s.workers[w]? = some ⟨k, WorkerPc.loop uri i err⟩) (hb : s.blocks[k]? = some b) :
    RetryInv (downloadLoopLoad s w k b uri i err writeErr) := by
  have hk : Event.claim k ∈ s.log := worker_claimed h w _ hw
  obtain ⟨hR, hF, hO⟩ := loopBody_retryCount b s.client.DownloadedSize i err writeErr
  simp only [downloadLoopLoad]
  split_ifs with hD
  · exact retryInv_setPc (retryInv_modifyBlock h k (fun x => { x with Downloading := false })
      (fun _ _ => rfl)) _ _
  · split
    · rename_i hout
      obtain ⟨hrc, hblock⟩ := hR hout
      have hm : modifyAt (fun _ => (loopBody b s.client.DownloadedSize i err writeErr).block)
          s.client.Info.BlockList k =
          modifyAt (fun x => { x with retryCount := x.retryCount + 1 })
            s.client.Info.BlockList k := by
        apply modifyAt_congr
        intro x hx
        have : x = b := by
          have := hx.symm.trans hb
          simpa using this
        rw [hblock, this]
      have := RetryOK.retry h k b uri hb hrc hk
      rw [← hm] at this
      exact RetryOK.setPc this w _
    · rename_i msg hout
      exact retryInv_setPc (retryInv_reportFailure
        (retryInv_modifyBlock h k _ (fun x hx => by
          have : x = b := by
            have := hx.symm.trans hb
            simpa using this
          rw [this]; exact hF msg hout)) msg) _ _
    · rename_i hout
      have h0 := hO (by rw [hout]; simp) (by intro m; rw [hout]; simp)
      exact RetryOK.read h k i _ (fun _ _ => h0)
    · rename_i e hout
      have h0 := hO (by rw [hout]; simp) (by intro m; rw [hout]; simp)
      have h1 : RetryInv ((s.modifyBlock k
          (fun _ => (loopBody b s.client.DownloadedSize i err writeErr).block)).emit
          (Event.read k i)) := RetryOK.read h k i _ (fun _ _ => h0)
      exact retryInv_setPc (retryInv_reportFailure h1 e) _ _
    · rename_i hn1 hn2 _ _
      have h0 := hO hn1 hn2
      have h1 := RetryOK.neutral (RetryOK.read h k i
        (fun _ => { (loopBody b s.client.DownloadedSize i err writeErr).block with
          Completed := b.Completed }) (fun _ _ => h0))
        (Event.write k b.BeginOffset
          (loopBody b s.client.DownloadedSize i err writeErr).written) rfl
      exact RetryOK.setPc h1 w _

theorem retryInv_downloadLoopStore {s : State} (h : RetryInv s) (w k : Nat) (b : DownloadBlock)
    (uri : String) (i64 loaded : Int) (eof : Bool) (ni : Nat) (nerr : ReadErr) :
    RetryInv (downloadLoopStore s w k b uri i64 loaded eof ni nerr) := by
  simp only [downloadLoopStore]
  split
  · exact RetryOK.setPc (RetryOK.modifyBlock h k
      (fun x => { x with Completed := true, Downloading := false }) (fun _ _ => rfl)) w _
  · exact RetryOK.setPc h w _

theorem retryInv_step (a : Action) (s t : State) (h : RetryInv s) (hst : step a s = some t) :
    RetryInv t := by
  obtain ⟨_, h1 | h1 | h1 | h1 | h1 | h1 | h1⟩ := step_cases a s t hst
  · obtain ⟨d, _, _, rfl⟩ := h1
    cases d
    · exact retryInv_BeginDownload h
    · exact h
  · obtain ⟨w, x, k, uri, b, _, hw, hb, rfl⟩ := h1
    exact retryInv_downloadRequest h w k b uri x hw hb
  · obtain ⟨w, e, ni, nerr, k, uri, i, err, b, _, hw, hb, rfl⟩ := h1
    exact retryInv_downloadLoop h w k b uri i err e ni nerr hw hb
  · obtain ⟨w, e, k, uri, i, err, b, _, hw, hb, rfl⟩ := h1
    exact retryInv_downloadLoopLoad h w k b uri i err e hw hb
  · obtain ⟨w, ni, nerr, k, uri, i64, loaded, eof, b, _, _, _, rfl⟩ := h1
    exact retryInv_downloadLoopStore h w k b uri i64 loaded eof ni nerr
  · obtain ⟨w, k, stat, _, _, _, rfl⟩ := h1
    exact retryInv_reactorReceive
      (retryInv_emit (retryInv_setPc h w WorkerPc.exited) (Event.signal k stat) rfl) stat
  · obtain ⟨h2, h3, h4, _⟩ := h1
    unfold RetryInv
    rw [h2, h3, h4]
    exact h

theorem retryInv_init (c : DownloaderClient) : RetryInv (initState c) := by
  refine ⟨?_, ?_⟩
  · intro w hw
    simp [initState] at hw
  · intro k b _ hc
    simp [initState] at hc

/-- A chunk accepted by the loop resets `retryCount` of the block to 0. -/
theorem read_resets_retryCount (s : State) (w k : Nat) (b : DownloadBlock) (uri : String)
    (i : Nat) (err : ReadErr) (writeErr : Option String) (ni : Nat) (nerr : ReadErr)
    (hcr : s.crashed = false) (hw : s.workers[w]? = some ⟨k, WorkerPc.loop uri i err⟩)
    (hb : s.blocks[k]? = some b) (hD : s.client.Downloading = true)
    (herr : ∀ msg, err ≠ ReadErr.other msg) :
    ∃ t b2, step (Action.iter w writeErr ni nerr) s = some t ∧
      t.blocks[k]? = some b2 ∧ b2.retryCount = 0 := by
  have hb2 : s.client.Info.BlockList[k]? = some b := hb
  have hnr : (loopBody b s.client.DownloadedSize i err writeErr).outcome ≠ IterOutcome.retry ∧
      ∀ msg, (loopBody b s.client.DownloadedSize i err writeErr).outcome ≠
        IterOutcome.readFailed msg := by
    cases err with
    | other msg => exact absurd rfl (herr msg)
    | none =>
      cases writeErr <;> simp only [loopBody] <;> split_ifs <;> simp
    | eof =>
      cases writeErr <;> simp only [loopBody] <;> split_ifs <;> simp
  have h0 := (loopBody_retryCount b s.client.DownloadedSize i err writeErr).2.2 hnr.1 hnr.2
  suffices h : ∃ b2, (downloadLoop s w k b uri i err writeErr ni nerr).blocks[k]? = some b2 ∧
      b2.retryCount = 0 by
    obtain ⟨b2, h1, h2⟩ := h
    exact ⟨_, b2, step_iter_eq s w k b uri i err writeErr ni nerr hcr hw hb, h1, h2⟩
  simp only [downloadLoop, hD, Bool.not_true, Bool.false_eq_true, if_false]
  split
  · rename_i hout; exact absurd hout hnr.1
  · rename_i msg hout; exact absurd hout (hnr.2 msg)
  · exact ⟨_, by simp [State.blocks, State.modifyBlock, State.emit, getElem?_modifyAt, hb2], h0⟩
  · refine ⟨_, ?_, h0⟩
    by_cases hc : (s.client.hasOnFailed && !s.client.Failed) = true <;>
      simp [State.blocks, State.modifyBlock, State.emit, State.setPc, State.reportFailure,
        callFailed, getElem?_modifyAt, hb2, hc]
  · exact ⟨{ (loopBody b s.client.DownloadedSize i err writeErr).block with
        Downloading := false },
      by simp [State.blocks, State.modifyBlock, State.emit, State.setPc, getElem?_modifyAt, hb2],
      h0⟩
  · exact ⟨_, by simp [State.blocks, State.modifyBlock, State.emit, State.setPc,
      getElem?_modifyAt, hb2], h0⟩

theorem reportFailure_reactor (s : State) (msg : String) :
    (s.reportFailure msg).reactor = s.reactor := by
  by_cases hc : (s.client.hasOnFailed && !s.client.Failed) = true <;>
    simp [State.reportFailure, callFailed, State.emit, hc]

theorem downloadRequest_reactor (s : State) (w k : Nat) (b : DownloadBlock) (uri : String)
    (a : Attempt) : (downloadRequest s w k b uri a).reactor = s.reactor := by
  cases a with
  | requestErr msg => simp [downloadRequest, State.setPc, reportFailure_reactor]
  | openErr msg => simp [downloadRequest, State.setPc, reportFailure_reactor]
  | seekErr msg => simp [downloadRequest, State.setPc, reportFailure_reactor]
  | doErr msg => simp [downloadRequest, State.setPc, reportFailure_reactor, State.emit]
  | response status refreshed i err =>
    simp only [downloadRequest]
    split
    · split
      · cases refreshed <;> rfl
      · simp [State.setPc, reportFailure_reactor, State.emit, State.modifyBlock]
    · rfl

theorem downloadLoop_reactor (s : State) (w k : Nat) (b : DownloadBlock) (uri : String)
    (i : Nat) (err : ReadErr) (writeErr : Option String) (ni : Nat) (nerr : ReadErr) :
    (downloadLoop s w k b uri i err writeErr ni nerr).reactor = s.reactor := by
  simp only [downloadLoop]
  split
  · rfl
  · split <;>
      simp [State.setPc, reportFailure_reactor, State.emit, State.modifyBlock]

theorem downloadLoopLoad_reactor (s : State) (w k : Nat) (b : DownloadBlock) (uri : String)
    (i : Nat) (err : ReadErr) (writeErr : Option String) :
    (downloadLoopLoad s w k b uri i err writeErr).reactor = s.reactor := by
  simp only [downloadLoopLoad]
  split
  · rfl
  · split <;>
      simp [State.setPc, reportFailure_reactor, State.emit, State.modifyBlock]

theorem downloadLoopStore_reactor (s : State) (w k : Nat) (b : DownloadBlock) (uri : String)
    (i64 loaded : Int) (eof : Bool) (ni : Nat) (nerr : ReadErr) :
    (downloadLoopStore s w k b uri i64 loaded eof ni nerr).reactor = s.reactor := by
  simp only [downloadLoopStore]
  split <;> rfl

/-- Once the reactor has left through the `return` of line 69 it stays there:
no later step makes it receive again. -/
theorem returned_step (a : Action) (s t : State) (h : s.reactor = ReactorPc.returned)
    (hst : step a s = some t) : t.reactor = ReactorPc.returned := by
  obtain ⟨_, h1 | h1 | h1 | h1 | h1 | h1 | h1⟩ := step_cases a s t hst
  · obtain ⟨d, _, hr, _⟩ := h1
    rw [h] at hr; cases hr
  · obtain ⟨w, x, k, uri, b, _, _, _, rfl⟩ := h1
    rw [downloadRequest_reactor]; exact h
  · obtain ⟨w, e, ni, nerr, k, uri, i, err, b, _, _, _, rfl⟩ := h1
    rw [downloadLoop_reactor]; exact h
  · obtain ⟨w, e, k, uri, i, err, b, _, _, _, rfl⟩ := h1
    rw [downloadLoopLoad_reactor]; exact h
  · obtain ⟨w, ni, nerr, k, uri, i64, loaded, eof, b, _, _, _, rfl⟩ := h1
    rw [downloadLoopStore_reactor]; exact h
  · obtain ⟨w, k, stat, _, _, hr, _⟩ := h1
    rw [h] at hr; cases hr
  · obtain ⟨_, _, _, _, _, _, _, _, _, _, _, h12⟩ := h1
    rcases h12 with h12 | ⟨_, hg, _⟩
    · rw [h12]; exact h
    · rw [h] at hg; cases hg

/-- A delivery needs the reactor in its receive. -/
theorem deliver_needs_recv (s : State) (w : Nat) (hr : s.reactor ≠ ReactorPc.recv) :
    step (Action.deliver w) s = none := by
  simp only [step]
  split
  · rfl
  · split
    · simp [hr]
    · rfl

/-- A worker at `ch <- stat` has no step of `download` left. -/
theorem send_steps (s : State) (w k : Nat) (stat : Bool)
    (hw : s.workers[w]? = some ⟨k, WorkerPc.send stat⟩) :
    (∀ a, step (Action.attempt w a) s = none) ∧
    (∀ e i r, step (Action.iter w e i r) s = none) ∧
    (∀ e, step (Action.iterLoad w e) s = none) ∧
    (∀ i r, step (Action.iterStore w i r) s = none) := by
  refine ⟨?_, ?_, ?_, ?_⟩
  · intro a; simp [step, hw]
  · intro e i r; simp [step, hw]
  · intro e; simp [step, hw]
  · intro i r; simp [step, hw]

/-- C5, as stated, fails, in two ways. (1) Against a server that always
answers 500, a client without `RefreshFunc` (and without `onFailed`) ends
after the first response, with no retry at all and with `Failed` still false;
the second request of the schedule is never issued (the trace has 4 states
for 5 actions). (2) In scenario `exhaustedUnheard` the reactor has returned on
the failure signal of worker 1 when worker 0 exhausts its 5 retries: worker 0
stands at `ch <- false` with `retryCount = 5`, no signal of worker 0 is ever
received and its delivery is not enabled (the trace has 10 states for 11
actions). -/
theorem retry_exhaustion_as_stated :
    (trace always500NoRefresher (initState (NewClient oneBlockInfo))).map
      (fun u => (countRetries u.log, u.client.Failed, u.client.Downloading,
        u.workers.map (fun x => x.pc))) =
    [(0, false, true, [WorkerPc.entry "U1"]), (0, false, true, [WorkerPc.entry "U1"]),
     (0, false, true, [WorkerPc.send false]), (0, false, false, [WorkerPc.exited])] ∧
    (trace exhaustedUnheard (initState refreshingTwoBlockClient)).map
      (fun u => (u.reactor, (u.workers.map (fun x => x.pc)).head?,
        (u.blocks.map (fun x => x.retryCount)).head?, countSignals 0 u.log)) =
    [(ReactorPc.guard, some (WorkerPc.entry "U1"), some 0, 0),
     (ReactorPc.recv, some (WorkerPc.entry "U1"), some 0, 0),
     (ReactorPc.recv, some (WorkerPc.entry "U1"), some 0, 0),
     (ReactorPc.returned, some (WorkerPc.entry "U1"), some 0, 0),
     (ReactorPc.returned, some (WorkerPc.entry "U1"), some 1, 0),
     (ReactorPc.returned, some (WorkerPc.entry "U1"), some 2, 0),
     (ReactorPc.returned, some (WorkerPc.entry "U1"), some 3, 0),
     (ReactorPc.returned, some (WorkerPc.entry "U1"), some 4, 0),
     (ReactorPc.returned, some (WorkerPc.entry "U1"), some 5, 0),
     (ReactorPc.returned, some (WorkerPc.send false), some 5, 0)] := by
  constructor
  · decide
  · decide

/-- C5, amended. In every state reachable from a client on which
`BeginDownload` has not yet been called, the block of every worker has
`retryCount ≤ 5` and at most 5 consecutive recursive `download` calls without
an intervening accepted chunk, and an accepted chunk resets `retryCount` to 0.
When a non-2xx response arrives with `retryCount = 5` (the 6th consecutive
attempt) *or with no `RefreshFunc` configured (then at any attempt, the first
included: a status error is retried only with a `RefreshFunc`)*, or a body
read error is seen by the read loop with `retryCount = 5` *while
`client.Downloading` is still true*, the worker clears the block's
`Downloading` flag, calls `callFailed` (with
"response status unsuccessful: <status>" for a status error: `Failed` becomes
true *if an `onFailed` callback is registered*) and goes to its `ch <- false`.
A read error that is pending when `client.Downloading` is false is not
treated as a failure: the worker leaves the loop as on a pause. A worker at
`ch <- false` has no other step of `download` left; *if the reactor is in its
receive*, the signal is delivered, once: the reactor clears
`client.Downloading` and returns, and the worker has returned and has no
further step; if the reactor is not in its receive the delivery is not
enabled, *if the reactor has already returned* (on an earlier failure
signal) it never will be, and *if the reactor has left its loop and closed the
channel* (after a pause) the send panics. *With a `RefreshFunc` and an
`onFailed` callback configured*, one block against a server that always answers 500 ends after
exactly 5 retries with `Failed = true`, the message
"response status unsuccessful: 500", `onFailed` invoked once and
`Downloading = false`. -/
theorem retry_bound_and_exhaustion (c : DownloaderClient) (acts : List Action) (t : State)
    (hrun : run acts (initState c) = some t) :
    (∀ w ∈ t.workers, ∀ b, t.blocks[w.block]? = some b →
      b.retryCount ≤ 5 ∧ retriesSince w.block t.log ≤ 5) ∧
    (∀ w k b uri i err writeErr ni nerr,
      t.crashed = false → t.workers[w]? = some ⟨k, WorkerPc.loop uri i err⟩ →
      t.blocks[k]? = some b → t.client.Downloading = true →
      (∀ msg, err ≠ ReadErr.other msg) →
      ∃ t2 b2, step (Action.iter w writeErr ni nerr) t = some t2 ∧
        t2.blocks[k]? = some b2 ∧ b2.retryCount = 0) ∧
    (∀ w k b uri status refreshed i err,
      t.crashed = false → t.workers[w]? = some ⟨k, WorkerPc.entry uri⟩ →
      t.blocks[k]? = some b → (status < 200 ∨ 300 ≤ status) →
      (t.client.hasRefreshFunc = false ∨ 5 ≤ b.retryCount) →
      ∃ t2, step (Action.attempt w (Attempt.response status refreshed i err)) t = some t2 ∧
        t2.blocks[k]? = some { b with Downloading := false } ∧
        t2.workers[w]? = some ⟨k, WorkerPc.send false⟩ ∧
        t2.client.Failed = (t.client.Failed || t.client.hasOnFailed) ∧
        (t.client.hasOnFailed = true → t.client.Failed = false →
          t2.client.FailedMessage = "response status unsuccessful: " ++ toString status) ∧
        t2.log = (if t.client.hasOnFailed && !t.client.Failed then
                  [Event.onFailed ("response status unsuccessful: " ++ toString status)]
                 else []) ++
          Event.callFailed ("response status unsuccessful: " ++ toString status) ::
          Event.request k uri b.BeginOffset b.EndOffset :: t.log) ∧
    (∀ w k b uri msg i writeErr ni nerr,
      t.crashed = false → t.workers[w]? = some ⟨k, WorkerPc.loop uri i (ReadErr.other msg)⟩ →
      t.blocks[k]? = some b → t.client.Downloading = true → 5 ≤ b.retryCount →
      ∃ t2, step (Action.iter w writeErr ni nerr) t = some t2 ∧
        t2.blocks[k]? = some { b with Downloading := false } ∧
        t2.workers[w]? = some ⟨k, WorkerPc.send false⟩ ∧
        t2.client.Failed = (t.client.Failed || t.client.hasOnFailed) ∧
        (t.client.hasOnFailed = true → t.client.Failed = false →
          t2.client.FailedMessage = msg) ∧
        t2.log = (if t.client.hasOnFailed && !t.client.Failed then [Event.onFailed msg]
                 else []) ++ Event.callFailed msg :: t.log) ∧
    (∀ w k b uri msg i writeErr ni nerr,
      t.crashed = false → t.workers[w]? = some ⟨k, WorkerPc.loop uri i (ReadErr.other msg)⟩ →
      t.blocks[k]? = some b → t.client.Downloading = false →
      ∃ t2, step (Action.iter w writeErr ni nerr) t = some t2 ∧
        t2.blocks[k]? = some { b with Downloading := false } ∧
        t2.workers[w]? = some ⟨k, WorkerPc.send true⟩ ∧
        t2.log = t.log ∧
        t2.client.Failed = t.client.Failed) ∧
    (∀ w k, t.crashed = false → t.workers[w]? = some ⟨k, WorkerPc.send false⟩ →
      ((∀ a, step (Action.attempt w a) t = none) ∧
        (∀ e i r, step (Action.iter w e i r) t = none) ∧
        (∀ e, step (Action.iterLoad w e) t = none) ∧
        (∀ i r, step (Action.iterStore w i r) t = none)) ∧
      (t.reactor = ReactorPc.recv →
        ∃ t2, step (Action.deliver w) t = some t2 ∧
          t2.workers[w]? = some ⟨k, WorkerPc.exited⟩ ∧
          t2.log = Event.signal k false :: t.log ∧
          t2.client.Downloading = false ∧
          t2.reactor = ReactorPc.returned ∧
          (∀ a, step (Action.attempt w a) t2 = none) ∧
          (∀ e i r, step (Action.iter w e i r) t2 = none) ∧
          step (Action.deliver w) t2 = none ∧
          step (Action.sendClosed w) t2 = none ∧
          (∀ e, step (Action.iterLoad w e) t2 = none) ∧
          (∀ i r, step (Action.iterStore w i r) t2 = none)) ∧
      (t.reactor ≠ ReactorPc.recv → step (Action.deliver w) t = none) ∧
      (t.reactor = ReactorPc.returned →
        ∀ acts2 u, run acts2 t = some u →
          u.reactor = ReactorPc.returned ∧ step (Action.deliver w) u = none) ∧
      (t.reactor = ReactorPc.closed →
        step (Action.sendClosed w) t = some { t with crashed := true })) ∧
    ((trace exhaustedRetries (initState refreshingClient)).map
        (fun u => u.blocks.map (fun x => x.retryCount)) =
        [[0], [0], [1], [2], [3], [4], [5], [5], [5]] ∧
      (run exhaustedRetries (initState refreshingClient)).map
        (fun u => (u.client.Failed, u.client.FailedMessage, u.client.Downloading)) =
        some (true, "response status unsuccessful: 500", false) ∧
      (run exhaustedRetries (initState refreshingClient)).map
        (fun u => (countRetries u.log, countOnFailed u.log, countCallFailed u.log)) =
        some (5, 1, 1)) := by
  have hinv : RetryInv t :=
    run_invariant RetryInv retryInv_step acts (initState c) t (retryInv_init c) hrun
  refine ⟨?_, ?_, ?_, ?_, ?_, ?_, ?_⟩
  · intro w hw b hb
    have h2 := hinv.2 w.block b hb (hinv.1 w hw)
    refine ⟨h2.2, ?_⟩
    omega
  · intro w k b uri i err writeErr ni nerr hcr hw hb hD herr
    exact read_resets_retryCount t w k b uri i err writeErr ni nerr hcr hw hb hD herr
  · intro w k b uri status refreshed i err hcr hw hb hst hrc
    exact status_failure t w k b uri status refreshed i err hcr hw hb hst hrc
  · intro w k b uri msg i writeErr ni nerr hcr hw hb hD hrc
    exact read_failure t w k b uri msg i writeErr ni nerr hcr hw hb hD hrc
  · intro w k b uri msg i writeErr ni nerr hcr hw hb hD
    obtain ⟨t2, h1, h2, h3, h4, _, _, _, h8, _⟩ :=
      loop_observes_pause t w k b uri i (ReadErr.other msg) writeErr ni nerr hcr hw hb hD
    exact ⟨t2, h1, h2, h3, h4, h8⟩
  · intro w k hcr hw
    refine ⟨send_steps t w k false hw, fun hr => deliver_failure t w k hcr hw hr,
      fun hr => deliver_needs_recv t w hr, ?_, ?_⟩
    · intro hr acts2 u hu
      have h1 : u.reactor = ReactorPc.returned :=
        run_invariant (fun x => x.reactor = ReactorPc.returned) returned_step acts2 t u hr hu
      exact ⟨h1, deliver_needs_recv u w (by rw [h1]; simp)⟩
    · intro hr
      simp [step, hcr, hw, hr]
  · refine ⟨?_, ?_, ?_⟩
    · decide
    · decide
    · decide

/-- Witness of the amended C5: the final state of scenario
`exhaustedRetries`, whose only worker is on a block with `retryCount = 5`. -/
theorem retry_bound_and_exhaustion_witness :
    ({ freshBlock 0 9 with retryCount := 5 } : DownloadBlock).retryCount ≤ 5 ∧
    retriesSince 0 exhaustedState.log ≤ 5 :=
  (retry_bound_and_exhaustion refreshingClient exhaustedRetries exhaustedState
    (by decide)).1 ⟨0, WorkerPc.exited⟩ (by decide) { freshBlock 0 9 with retryCount := 5 }
    (by decide)

/-! ## C6: the aggregate -/

theorem sumDownloaded_modifyAt (f : DownloadBlock → DownloadBlock) (l : List DownloadBlock)
    (k : Nat) (b : DownloadBlock) (hb : l[k]? = some b) :
    sumDownloaded (modifyAt f l k) =
      sumDownloaded l - b.DownloadedSize + (f b).DownloadedSize := by
  induction l generalizing k with
  | nil => simp at hb
  | cons a as ih =>
    cases k with
    | zero =>
      simp only [List.getElem?_cons_zero, Option.some.injEq] at hb
      subst hb
      simp only [modifyAt, sumDownloaded]
      omega
    | succ k =>
      simp only [List.getElem?_cons_succ] at hb
      simp only [modifyAt, sumDownloaded, ih k hb]
      omega

theorem sumDownloaded_modifyAt_same (f : DownloadBlock → DownloadBlock)
    (l : List DownloadBlock) (k : Nat)
    (hf : ∀ x, (f x).DownloadedSize = x.DownloadedSize) :
    sumDownloaded (modifyAt f l k) = sumDownloaded l := by
  induction l generalizing k with
  | nil => rfl
  | cons a as ih =>
    cases k with
    | zero => simp [modifyAt, sumDownloaded, hf]
    | succ k => simp [modifyAt, sumDownloaded, ih]

theorem seedDownloaded_eq (l : List DownloadBlock) :
    ∀ acc, isInt64 acc → seedDownloaded acc l = wrap64 (acc + sumDownloaded l) := by
  induction l with
  | nil =>
    intro acc h
    simp [seedDownloaded, sumDownloaded, wrap64_of_isInt64 h]
  | cons b bs ih =>
    intro acc _
    simp only [seedDownloaded, sumDownloaded]
    rw [ih _ (isInt64_wrap64 _), wrap64_add_wrap64]
    congr 1
    omega

theorem Keeps.refl (s : State) : Keeps s s := ⟨rfl, rfl⟩

theorem Keeps.trans {s t u : State} (h1 : Keeps s t) (h2 : Keeps t u) : Keeps s u :=
  ⟨h2.1.trans h1.1, h2.2.trans h1.2⟩

theorem keeps_setPc (s : State) (w : Nat) (pc : WorkerPc) : Keeps s (s.setPc w pc) :=
  ⟨rfl, rfl⟩

theorem keeps_emit (s : State) (e : Event) : Keeps s (s.emit e) := ⟨rfl, rfl⟩

theorem keeps_reportFailure (s : State) (msg : String) : Keeps s (s.reportFailure msg) := by
  by_cases hc : (s.client.hasOnFailed && !s.client.Failed) = true
  · simp only [State.reportFailure, callFailed, State.emit, hc, if_true]
    exact ⟨rfl, rfl⟩
  · simp only [State.reportFailure, callFailed, State.emit, hc, if_false]
    exact ⟨rfl, rfl⟩

theorem keeps_modifyBlock (s : State) (k : Nat) (f : DownloadBlock → DownloadBlock)
    (hf : ∀ x, (f x).DownloadedSize = x.DownloadedSize) : Keeps s (s.modifyBlock k f) :=
  ⟨rfl, sumDownloaded_modifyAt_same f _ k hf⟩

theorem keeps_claim (s : State) (k : Nat) : Keeps s (s.claim k) :=
  ⟨rfl, sumDownloaded_modifyAt_same _ _ k (fun _ => rfl)⟩

theorem keeps_spawn (s : State) (k : Nat) (u : String) : Keeps s (s.spawn k u) := ⟨rfl, rfl⟩

theorem keeps_dispatchInitial (n : Nat) : ∀ s : State, Keeps s (dispatchInitial n s) := by
  induction n with
  | zero => intro s; exact Keeps.refl s
  | succ n ih =>
    intro s
    rw [dispatchInitial]
    split
    · exact Keeps.refl s
    · split
      · exact ih s
      · rename_i k _
        split
        · exact keeps_claim s k
        · rename_i u _ _
          exact ((keeps_claim s k).trans (keeps_spawn _ k u)).trans (ih _)

theorem keeps_downloadRequest (s : State) (w k : Nat) (b : DownloadBlock) (uri : String)
    (a : Attempt) : Keeps s (downloadRequest s w k b uri a) := by
  cases a with
  | requestErr msg => exact (keeps_reportFailure s msg).trans (keeps_setPc _ _ _)
  | openErr msg => exact (keeps_reportFailure s msg).trans (keeps_setPc _ _ _)
  | seekErr msg => exact (keeps_reportFailure s msg).trans (keeps_setPc _ _ _)
  | doErr msg =>
    exact ((keeps_emit s _).trans (keeps_reportFailure _ msg)).trans (keeps_setPc _ _ _)
  | response status refreshed i err =>
    simp only [downloadRequest]
    split
    · split
      · have h2 : Keeps s ((s.emit (Event.request k uri b.BeginOffset b.EndOffset)).modifyBlock k
            (fun x => { x with retryCount := x.retryCount + 1 })) :=
          (keeps_emit s _).trans (keeps_modifyBlock _ k _ (fun _ => rfl))
        cases refreshed with
        | nil => exact h2
        | cons u us => exact h2
      · exact (((keeps_emit s _).trans (keeps_modifyBlock _ k
          (fun x => { x with Downloading := false }) (fun _ => rfl))).trans
          (keeps_reportFailure _ _)).trans (keeps_setPc _ _ _)
    · exact (keeps_emit s _).trans (keeps_setPc _ _ _)

theorem keeps_reactorReceive (s : State) (stat : Bool) : Keeps s (reactorReceive s stat) := by
  simp only [reactorReceive]
  split
  · exact ⟨rfl, rfl⟩
  · split
    · split
      · split
        · exact ⟨rfl, rfl⟩
        · exact ⟨rfl, rfl⟩
      · exact ⟨rfl, rfl⟩
    · rename_i k _
      split
      · exact keeps_claim s k
      · rename_i u _ _
        exact (keeps_claim s k).trans (keeps_spawn _ k u)

/-- The sizes after one pass through the loop body: either nothing was
written and the block's progress is unchanged, or `n` bytes, `0 ≤ n ≤ 1024`,
were written and both the block's progress and the client total advanced by
`n` (in `int64` arithmetic). -/
theorem loopBody_sizes (b : DownloadBlock) (cs : Int) (i : Nat) (err : ReadErr)
    (writeErr : Option String) :
    ((loopBody b cs i err writeErr).block.DownloadedSize = b.DownloadedSize ∧
      (loopBody b cs i err writeErr).outcome ≠ IterOutcome.finished ∧
      (loopBody b cs i err writeErr).outcome ≠ IterOutcome.again) ∨
    (((loopBody b cs i err writeErr).outcome = IterOutcome.finished ∨
       (loopBody b cs i err writeErr).outcome = IterOutcome.again) ∧
      ∃ n : Int, 0 ≤ n ∧ n ≤ 1024 ∧
        (loopBody b cs i err writeErr).block.DownloadedSize = wrap64 (b.DownloadedSize + n) ∧
        (loopBody b cs i err writeErr).clientSize = wrap64 (cs + n)) := by
  cases err with
  | other msg =>
    left
    simp only [loopBody]
    split_ifs <;> simp
  | none =>
    by_cases h1 : 1024 < i
    · left
      simp [loopBody, h1]
    · by_cases h0 : (chunkSize { b with retryCount := 0 } i).1 < 0
      · left
        simp [loopBody, h1, h0]
      · cases writeErr with
        | some w =>
          left
          simp [loopBody, h1, h0]
        | none =>
          right
          have hn : (chunkSize { b with retryCount := 0 } i).1 ≤ 1024 := by
            simp only [chunkSize]
            split_ifs <;> simp only <;> omega
          refine ⟨?_, _, not_lt.mp h0, hn, ?_, ?_⟩ <;>
            simp only [loopBody, h1, h0, if_false] <;> split_ifs <;> simp
  | eof =>
    by_cases h1 : 1024 < i
    · left
      simp [loopBody, h1]
    · by_cases h0 : (chunkSize { b with retryCount := 0 } i).1 < 0
      · left
        simp [loopBody, h1, h0]
      · cases writeErr with
        | some w =>
          left
          simp [loopBody, h1, h0]
        | none =>
          right
          have hn : (chunkSize { b with retryCount := 0 } i).1 ≤ 1024 := by
            simp only [chunkSize]
            split_ifs <;> simp only <;> omega
          refine ⟨?_, _, not_lt.mp h0, hn, ?_, ?_⟩ <;>
            simp only [loopBody, h1, h0, if_false] <;> split_ifs <;> simp

/-- The sizes after a step of the read loop: either neither the client total
nor the sum over the blocks changed, or `n` bytes were written and the
block's progress and the client total both advanced by `n`. -/
theorem downloadLoop_sizes (s : State) (w k : Nat) (b : DownloadBlock) (uri : String)
    (i : Nat) (err : ReadErr) (writeErr : Option String) (ni : Nat) (nerr : ReadErr)
    (hb : s.blocks[k]? = some b) :
    Keeps s (downloadLoop s w k b uri i err writeErr ni nerr) ∨
    ∃ (n : Int) (b2 : DownloadBlock), 0 ≤ n ∧ n ≤ 1024 ∧
      (downloadLoop s w k b uri i err writeErr ni nerr).blocks[k]? = some b2 ∧
      b2.DownloadedSize = wrap64 (b.DownloadedSize + n) ∧
      (downloadLoop s w k b uri i err writeErr ni nerr).client.DownloadedSize =
        wrap64 (s.client.DownloadedSize + n) ∧
      sumDownloaded (downloadLoop s w k b uri i err writeErr ni nerr).client.Info.BlockList =
        sumDownloaded s.client.Info.BlockList - b.DownloadedSize +
          wrap64 (b.DownloadedSize + n) := by
  have hb2 : s.client.Info.BlockList[k]? = some b := hb
  simp only [downloadLoop]
  split
  · left
    exact (keeps_modifyBlock s k (fun x => { x with Downloading := false })
      (fun _ => rfl)).trans (keeps_setPc _ _ _)
  · rcases loopBody_sizes b s.client.DownloadedSize i err writeErr with
      ⟨hd, hnf, hna⟩ | ⟨ho, n, hn0, hn1, hd, hc⟩
    · left
      have hk1 : Keeps s (s.modifyBlock k
          (fun _ => (loopBody b s.client.DownloadedSize i err writeErr).block)) := by
        refine ⟨rfl, ?_⟩
        show sumDownloaded (modifyAt _ s.client.Info.BlockList k) = _
        rw [sumDownloaded_modifyAt _ _ k b hb2, hd]
        omega
      split
      · exact (hk1.trans (keeps_emit _ _)).trans (keeps_setPc _ _ _)
      · exact (hk1.trans (keeps_reportFailure _ _)).trans (keeps_setPc _ _ _)
      · exact hk1
      · exact ((hk1.trans (keeps_emit _ _)).trans (keeps_reportFailure _ _)).trans
          (keeps_setPc _ _ _)
      · rename_i hout
        exact absurd hout hnf
      · rename_i hout
        exact absurd hout hna
    · right
      split
      · rename_i hout
        rw [hout] at ho
        simp at ho
      · rename_i hout
        rw [hout] at ho
        simp at ho
      · rename_i hout
        rw [hout] at ho
        simp at ho
      · rename_i hout
        rw [hout] at ho
        simp at ho
      · refine ⟨n, { (loopBody b s.client.DownloadedSize i err writeErr).block with
          Downloading := false }, hn0, hn1, ?_, hd, hc, ?_⟩
        · simp [State.blocks, State.setPc, State.modifyBlock, State.emit, getElem?_modifyAt,
            hb2]
        · simp only [State.setPc, State.modifyBlock, State.emit]
          rw [sumDownloaded_modifyAt_same
              (fun x : DownloadBlock => { x with Downloading := false }) _ k (fun _ => rfl),
            sumDownloaded_modifyAt _ _ k b hb2, hd]
      · refine ⟨n, (loopBody b s.client.DownloadedSize i err writeErr).block, hn0, hn1, ?_,
          hd, hc, ?_⟩
        · simp [State.blocks, State.setPc, State.modifyBlock, State.emit, getElem?_modifyAt,
            hb2]
        · simp only [State.setPc, State.modifyBlock, State.emit]
          rw [sumDownloaded_modifyAt _ _ k b hb2, hd]

theorem wrap64_sum_step (sum d n : Int) :
    wrap64 (sum - d + wrap64 (d + n)) = wrap64 (wrap64 sum + n) := by
  unfold wrap64; omega

/-- The aggregate invariant is preserved by every step that does not separate
the load from the store of line 190, and such a step either leaves the client
total alone or adds to it the `n` bytes, `0 ≤ n ≤ 1024`, written by a worker,
the same `n` being added to that worker's block. -/
theorem sync_step (a : Action) (s t : State) (ha : a.atomicAdd = true) (h : SyncInv s)
    (hst : step a s = some t) :
    SyncInv t ∧
    (Keeps s t ∨
      ∃ w e ni nerr k uri i err b b2 n, a = Action.iter w e ni nerr ∧
        s.workers[w]? = some ⟨k, WorkerPc.loop uri i err⟩ ∧
        s.blocks[k]? = some b ∧ t.blocks[k]? = some b2 ∧ (0 : Int) ≤ n ∧ n ≤ 1024 ∧
        b2.DownloadedSize = wrap64 (b.DownloadedSize + n) ∧
        t.client.DownloadedSize = wrap64 (s.client.DownloadedSize + n)) := by
  obtain ⟨hcr, h1 | h1 | h1 | h1 | h1 | h1 | h1⟩ := step_cases a s t hst
  · obtain ⟨d, _, hr, _⟩ := h1
    rcases h.1 with h2 | h2
    · exact absurd hr h2
    · rw [hcr] at h2; cases h2
  · obtain ⟨w, x, k, uri, b, _, hw, hb, rfl⟩ := h1
    have hk := keeps_downloadRequest s w k b uri x
    have hr : (downloadRequest s w k b uri x).reactor = s.reactor := by
      cases x <;> simp only [downloadRequest, State.setPc, State.reportFailure, State.emit,
        State.modifyBlock] <;> (try split_ifs) <;> (try split) <;> rfl
    refine ⟨⟨?_, ?_⟩, Or.inl hk⟩
    · rcases h.1 with h2 | h2
      · left; rw [hr]; exact h2
      · rw [hcr] at h2; cases h2
    · rw [hk.1, hk.2]; exact h.2
  · obtain ⟨w, e, ni, nerr, k, uri, i, err, b, rfl, hw, hb, rfl⟩ := h1
    have hr : (downloadLoop s w k b uri i err e ni nerr).reactor = s.reactor := by
      simp only [downloadLoop, State.setPc, State.reportFailure, State.emit,
        State.modifyBlock]
      split
      · rfl
      · split <;> (try split_ifs) <;> rfl
    have hre : (downloadLoop s w k b uri i err e ni nerr).reactor ≠ ReactorPc.notStarted ∨
        (downloadLoop s w k b uri i err e ni nerr).crashed = true := by
      rcases h.1 with h2 | h2
      · left; rw [hr]; exact h2
      · rw [hcr] at h2; cases h2
    rcases downloadLoop_sizes s w k b uri i err e ni nerr hb with hk | ⟨n, b2, h0, h1, h2, h3, h4, h5⟩
    · refine ⟨⟨hre, ?_⟩, Or.inl hk⟩
      rw [hk.1, hk.2]; exact h.2
    · refine ⟨⟨hre, ?_⟩, Or.inr ⟨w, e, ni, nerr, k, uri, i, err, b, b2, n, rfl, hw, hb, h2, h0,
        h1, h3, h4⟩⟩
      rw [h4, h5, h.2, wrap64_sum_step]
  · obtain ⟨w, e, k, uri, i, err, b, rfl, _⟩ := h1
    simp [Action.atomicAdd] at ha
  · obtain ⟨w, ni, nerr, k, uri, i64, loaded, eof, b, rfl, _⟩ := h1
    simp [Action.atomicAdd] at ha
  · obtain ⟨w, k, stat, _, _, _, rfl⟩ := h1
    have hk := ((keeps_setPc s w WorkerPc.exited).trans
      (keeps_emit _ (Event.signal k stat))).trans (keeps_reactorReceive _ stat)
    refine ⟨⟨?_, ?_⟩, Or.inl hk⟩
    · left
      simp only [reactorReceive]
      split
      · simp
      · split
        · split <;> simp
        · split <;> simp
    · rw [hk.1, hk.2]; exact h.2
  · obtain ⟨_, _, h4, h5, _, _, _, _, _, _, _, h12⟩ := h1
    refine ⟨⟨?_, ?_⟩, Or.inl ⟨h5, by rw [h4]⟩⟩
    · rcases h.1 with h2 | h2
      · left
        rcases h12 with h12 | ⟨_, _, h12⟩
        · rw [h12]; exact h2
        · rw [h12]; split_ifs <;> simp
      · rw [hcr] at h2; cases h2
    · rw [h5, h4]; exact h.2
theorem syncInv_BeginDownload (c : DownloaderClient) (hfresh : c.DownloadedSize = 0) :
    SyncInv (BeginDownload (initState c)) ∧
    sumDownloaded (BeginDownload (initState c)).blocks = sumDownloaded c.Info.BlockList := by
  have hk := keeps_dispatchInitial (threadCount c.Info).toNat
    { initState c with client := { c with
        Downloading := true,
        DownloadedSize := seedDownloaded c.DownloadedSize c.Info.BlockList } }
  have hseed : seedDownloaded c.DownloadedSize c.Info.BlockList =
      wrap64 (sumDownloaded c.Info.BlockList) := by
    rw [hfresh, seedDownloaded_eq _ 0 (by decide)]
    congr 1
    omega
  obtain ⟨hk1, hk2⟩ := hk
  simp only [initState] at hk1 hk2
  simp only [BeginDownload, initState, State.blocks]
  split
  · rename_i hc
    refine ⟨⟨Or.inr hc, ?_⟩, hk2⟩
    rw [hk1, hk2, hseed]
  · refine ⟨⟨Or.inl (by simp), ?_⟩, hk2⟩
    show (dispatchInitial _ _).client.DownloadedSize = wrap64 (sumDownloaded _)
    rw [hk1, hk2, hseed]

theorem modifyAt_modifyAt {α : Type} (f g : α → α) (l : List α) (k : Nat) :
    modifyAt g (modifyAt f l k) k = modifyAt (fun x => g (f x)) l k := by
  induction l generalizing k with
  | nil => rfl
  | cons a as ih =>
    cases k with
    | zero => rfl
    | succ k => simp [modifyAt, ih]

/-- What the loop body has done when it reaches line 190: the total it would
store, the completion test of line 191 and the block's `Completed` flag. -/
theorem loopBody_write (b : DownloadBlock) (cs : Int) (i : Nat) (err : ReadErr)
    (writeErr : Option String) :
    ((loopBody b cs i err writeErr).outcome = IterOutcome.finished →
      (loopBody b cs i err writeErr).block.Completed = true ∧
      (loopEof b i err || decide ((loopBody b cs i err writeErr).block.BeginOffset >
        (loopBody b cs i err writeErr).block.EndOffset)) = true ∧
      (loopBody b cs i err writeErr).clientSize =
        wrap64 (cs + (loopBody b cs i err writeErr).written)) ∧
    ((loopBody b cs i err writeErr).outcome = IterOutcome.again →
      (loopBody b cs i err writeErr).block.Completed = b.Completed ∧
      (loopEof b i err || decide ((loopBody b cs i err writeErr).block.BeginOffset >
        (loopBody b cs i err writeErr).block.EndOffset)) = false ∧
      (loopBody b cs i err writeErr).clientSize =
        wrap64 (cs + (loopBody b cs i err writeErr).written)) := by
  cases err with
  | other msg =>
    simp only [loopBody]
    split_ifs <;> simp
  | none =>
    cases writeErr <;> simp only [loopBody, loopEof, chunkSize] <;> split_ifs <;> simp_all
  | eof =>
    cases writeErr <;> simp only [loopBody, loopEof, chunkSize] <;> split_ifs <;> simp_all


theorem step_iterLoad_eq (s : State) (w k : Nat) (b : DownloadBlock) (uri : String) (i : Nat)
    (err : ReadErr) (writeErr : Option String)
    (hcr : s.crashed = false) (hw : s.workers[w]? = some ⟨k, WorkerPc.loop uri i err⟩)
    (hb : s.blocks[k]? = some b) :
    step (Action.iterLoad w writeErr) s = some (downloadLoopLoad s w k b uri i err writeErr) := by
  simp [step, hcr, hw, hb]

/-- A pass through the read loop in one step is the load half followed at once
by the store half (which is not enabled when the pass ended before line 190). -/
theorem iter_eq_load_store (s : State) (w k : Nat) (b : DownloadBlock) (uri : String)
    (i : Nat) (err : ReadErr) (writeErr : Option String) (ni : Nat) (nerr : ReadErr)
    (hcr : s.crashed = false) (hw : s.workers[w]? = some ⟨k, WorkerPc.loop uri i err⟩)
    (hb : s.blocks[k]? = some b) :
    step (Action.iter w writeErr ni nerr) s =
      (step (Action.iterLoad w writeErr) s).map
        (fun u => (step (Action.iterStore w ni nerr) u).getD u) := by
  rw [step_iter_eq s w k b uri i err writeErr ni nerr hcr hw hb,
    step_iterLoad_eq s w k b uri i err writeErr hcr hw hb]
  simp only [Option.map_some', Option.some.injEq]
  have hb2 : s.client.Info.BlockList[k]? = some b := hb
  obtain ⟨hfin, hag⟩ := loopBody_write b s.client.DownloadedSize i err writeErr
  cases hD : s.client.Downloading
  · simp [downloadLoop, downloadLoopLoad, hD, step, State.setPc, State.modifyBlock, hcr,
      getElem?_modifyAt, hw]
  · cases hout : (loopBody b s.client.DownloadedSize i err writeErr).outcome with
    | retry =>
      simp [downloadLoop, downloadLoopLoad, hD, hout, step, State.setPc, State.modifyBlock,
        State.emit, hcr, getElem?_modifyAt, hw]
    | readFailed msg =>
      by_cases hc : (s.client.hasOnFailed && !s.client.Failed) = true <;>
        simp [downloadLoop, downloadLoopLoad, hD, hout, step, State.setPc, State.modifyBlock,
          State.emit, State.reportFailure, callFailed, hcr, getElem?_modifyAt, hw, hc]
    | panicked =>
      simp [downloadLoop, downloadLoopLoad, hD, hout, step, State.setPc, State.modifyBlock,
        State.emit]
    | writeFailed e =>
      by_cases hc : (s.client.hasOnFailed && !s.client.Failed) = true <;>
        simp [downloadLoop, downloadLoopLoad, hD, hout, step, State.setPc, State.modifyBlock,
          State.emit, State.reportFailure, callFailed, hcr, getElem?_modifyAt, hw, hc]
    | finished =>
      obtain ⟨h1, h2, h3⟩ := hfin hout
      simp only [Bool.or_eq_true, decide_eq_true_eq, gt_iff_lt] at h2
      simp [downloadLoop, downloadLoopLoad, downloadLoopStore, hD, hout, step, State.setPc,
        State.modifyBlock, State.emit, State.blocks, hcr, getElem?_modifyAt, hw, hb2,
        modifyAt_modifyAt, h3, h2, h1]
    | again =>
      obtain ⟨h1, h2, h3⟩ := hag hout
      simp only [Bool.or_eq_false_iff, decide_eq_false_iff_not, gt_iff_lt, not_lt] at h2
      have h2b : ¬ (loopEof b i err = true ∨
          (loopBody b s.client.DownloadedSize i err writeErr).block.EndOffset <
            (loopBody b s.client.DownloadedSize i err writeErr).block.BeginOffset) := by
        intro h
        rcases h with h | h
        · rw [h2.1] at h; cases h
        · omega
      simp [downloadLoop, downloadLoopLoad, downloadLoopStore, hD, hout, step, State.setPc,
        State.modifyBlock, State.emit, State.blocks, hcr, getElem?_modifyAt, hw, hb2,
        modifyAt_modifyAt, h3, h2b, ← h1]

/-- C6, as stated, fails. The source does not synchronise
`client.DownloadedSize += i64` (line 190). In scenario `lostUpdate` worker 0
loads the total 0, worker 1 then writes two chunks of 3 bytes (total 6, sum of
the blocks 9 with the chunk of worker 0), and worker 0 stores `0 + 3`: the
total decreases from 6 to 3 and stays below the sum 9, with no worker left
between load and store. The states list the client total, the sum over the
blocks and whether a worker stands between load and store. -/
theorem lost_update :
    (trace lostUpdate (initState (NewClient twoBlockInfo))).map
      (fun t => (t.client.DownloadedSize, sumDownloaded t.blocks, midAdd t)) =
    [(0, 0, false), (0, 0, false), (0, 0, false), (0, 3, true), (3, 6, true), (6, 9, true),
     (3, 9, false)] := by
  decide

/-- C6, amended. For a fresh client (`DownloadedSize = 0`) and any block
list: after the start step, and after every schedule that follows it *in
which no step of another goroutine separates the load from the store of
`client.DownloadedSize += i64`* (every pass through the read loop is an `iter`
step, which is the load half followed at once by the store half), the client's
`DownloadedSize` is the sum of the blocks' `DownloadedSize` (computed in
`int64`; it equals the mathematical sum whenever that sum is an `int64`
value). Every further step of that kind either changes neither side, or is a
chunk write of `n` bytes, `0 ≤ n ≤ 1024`, by a worker, which advances that
worker's block and the client total by the same `n`; and no such step
decreases the client total (as long as the total has room for one more buffer
below the `int64` maximum). -/
theorem aggregate_progress (c : DownloaderClient) (acts : List Action) (t : State)
    (hfresh : c.DownloadedSize = 0)
    (hatomic : ∀ a ∈ acts, a.atomicAdd = true)
    (hrun : run (Action.begin false :: acts) (initState c) = some t) :
    ((BeginDownload (initState c)).client.DownloadedSize =
        wrap64 (sumDownloaded (BeginDownload (initState c)).blocks) ∧
      (isInt64 (sumDownloaded (BeginDownload (initState c)).blocks) →
        (BeginDownload (initState c)).client.DownloadedSize =
          sumDownloaded (BeginDownload (initState c)).blocks)) ∧
    t.client.DownloadedSize = wrap64 (sumDownloaded t.blocks) ∧
    (isInt64 (sumDownloaded t.blocks) → t.client.DownloadedSize = sumDownloaded t.blocks) ∧
    (∀ a t2, a.atomicAdd = true → step a t = some t2 →
      ((t2.client.DownloadedSize = t.client.DownloadedSize ∧
          sumDownloaded t2.blocks = sumDownloaded t.blocks) ∨
        ∃ w e ni nerr k uri i err b b2 n, a = Action.iter w e ni nerr ∧
          t.workers[w]? = some ⟨k, WorkerPc.loop uri i err⟩ ∧
          t.blocks[k]? = some b ∧ t2.blocks[k]? = some b2 ∧ (0 : Int) ≤ n ∧ n ≤ 1024 ∧
          b2.DownloadedSize = wrap64 (b.DownloadedSize + n) ∧
          t2.client.DownloadedSize = wrap64 (t.client.DownloadedSize + n)) ∧
      t2.client.DownloadedSize = wrap64 (sumDownloaded t2.blocks) ∧
      (isInt64 (t.client.DownloadedSize + 1024) →
        t.client.DownloadedSize ≤ t2.client.DownloadedSize)) ∧
    (∀ w k b uri i err writeErr ni nerr,
      t.crashed = false → t.workers[w]? = some ⟨k, WorkerPc.loop uri i err⟩ →
      t.blocks[k]? = some b →
      step (Action.iter w writeErr ni nerr) t =
        (step (Action.iterLoad w writeErr) t).map
          (fun u => (step (Action.iterStore w ni nerr) u).getD u)) := by
  have hstart := (syncInv_BeginDownload c hfresh).1
  have hstep : step (Action.begin false) (initState c) = some (BeginDownload (initState c)) := by
    simp [step, initState]
  simp only [run, hstep, Option.some_bind] at hrun
  have hinv : SyncInv t :=
    run_invariant_of (fun a => a.atomicAdd = true) SyncInv
      (fun a s u ha hs h => (sync_step a s u ha hs h).1) acts _ t hatomic hstart hrun
  refine ⟨⟨hstart.2, fun h => by rw [hstart.2]; exact wrap64_of_isInt64 h⟩, hinv.2,
    fun h => by rw [hinv.2]; exact wrap64_of_isInt64 h, ?_,
    fun w k b uri i err writeErr ni nerr hcr hw hb =>
      iter_eq_load_store t w k b uri i err writeErr ni nerr hcr hw hb⟩
  intro a t2 ha h2
  obtain ⟨hinv2, hcase⟩ := sync_step a t t2 ha hinv h2
  refine ⟨hcase, hinv2.2, ?_⟩
  intro hroom
  have hc : isInt64 t.client.DownloadedSize := by
    rw [hinv.2]; exact isInt64_wrap64 _
  rcases hcase with hk | ⟨w, e, ni, nerr, k, uri, i, err, b, b2, n, _, _, _, _, h0, h1, _, h4⟩
  · rw [hk.1]
  · rw [h4, wrap64_of_isInt64]
    · omega
    · unfold isInt64 at *
      omega

/-- Witness of the amended C6: the resumed two-block job after two chunk
writes, each a single `iter` step. -/
theorem aggregate_progress_witness :
    resumedState.client.DownloadedSize = sumDownloaded resumedState.blocks ∧
    resumedState.client.DownloadedSize = 10 :=
  ⟨(aggregate_progress (NewClient resumedInfo)
      [Action.attempt 0 (Attempt.response 206 [] 3 ReadErr.none),
       Action.iter 0 none 3 ReadErr.none, Action.iter 0 none 0 ReadErr.eof]
      resumedState (by decide) (by decide) (by decide)).2.2.1 (by decide),
    by decide⟩

end HttpDownloader
